import Mathlib

/-!
# Verification of the netlog hook-lifecycle registry and event classifier

A shallow embedding of `src/netlog/probes.c` (CERN-CERT/netlog): the probe
registry (`plant_probes`, `unplant_probes`, `probes_init`,
`all_probes_param_set`, `one_probe_param_set`) and the event-classification
pipeline (`log_if_not_whitelisted`, `pre_sys_close`).

Machine integers are modelled as `Nat` (the `u32 loaded_probes` mask stays
below `2^32`; complements are taken against an explicit width mask).  The
instrumentation subsystem (`plant_kretprobe` / `plant_jprobe` /
`unplant_kretprobe` / `unplant_jprobe`, declared in `lib/probes_helper.h`,
outside this repository's core sources) is modelled by an oracle
`ok : Phys → Int` giving each primitive's return value, and by the list of
issued calls (`Ev`) that each registry operation produces; the physical
installed state of the shared close hook is the fold of those calls.
-/

/-! ## Constants

`PROBE_TCP_CONNECT` … `PROBE_UDP_CLOSE` are declared in `probes.h`, which is
not under the provided sources; their order is fixed by `probe_list` in
`probes.c` and by the spec's enumeration {TCP_CONNECT, TCP_ACCEPT, TCP_CLOSE,
UDP_CONNECT, UDP_BIND, UDP_CLOSE}.  Only their distinctness matters to any
claim.  The error tags for connect/accept/bind are from `netlog.h`;
`CLOSE_PROBE_FAILED` is declared in a header not under the provided sources.
-/

/-- Modelled from the spec: bit index of the TCP_CONNECT probe kind
(first entry of `probe_list`; exact numeric value lives in `probes.h`,
which is not part of the provided sources). -/
def PROBE_TCP_CONNECT : Nat := 0

/-- Modelled from the spec: bit index of the TCP_ACCEPT probe kind. -/
def PROBE_TCP_ACCEPT : Nat := 1

/-- Modelled from the spec: bit index of the TCP_CLOSE probe kind. -/
def PROBE_TCP_CLOSE : Nat := 2

/-- Modelled from the spec: bit index of the UDP_CONNECT probe kind. -/
def PROBE_UDP_CONNECT : Nat := 3

/-- Modelled from the spec: bit index of the UDP_BIND probe kind. -/
def PROBE_UDP_BIND : Nat := 4

/-- Modelled from the spec: bit index of the UDP_CLOSE probe kind. -/
def PROBE_UDP_CLOSE : Nat := 5

/-- `#define CONNECT_PROBE_FAILED -1` (netlog.h). -/
def CONNECT_PROBE_FAILED : Int := -1

/-- `#define ACCEPT_PROBE_FAILED -2` (netlog.h). -/
def ACCEPT_PROBE_FAILED : Int := -2

/-- Modelled from the spec: the close-family installation-failure tag.
`CLOSE_PROBE_FAILED` is used by `probes.c` but defined in a header not under
the provided sources; the spec requires four distinct tags (connect, accept,
close, bind) and `netlog.h` reserves `-3` for the close/shutdown slot
(`SHUTDOWN_PROBE_FAILED`). -/
def CLOSE_PROBE_FAILED : Int := -3

/-- `#define BIND_PROBE_FAILED -4` (netlog.h). -/
def BIND_PROBE_FAILED : Int := -4

/-- `AF_INET` (Linux uapi, value 2). -/
def AF_INET : Nat := 2

/-- `AF_INET6` (Linux uapi, value 10). -/
def AF_INET6 : Nat := 10

/-- `IPPROTO_TCP` (Linux uapi, value 6). -/
def IPPROTO_TCP : Nat := 6

/-- `IPPROTO_UDP` (Linux uapi, value 17). -/
def IPPROTO_UDP : Nat := 17

/-- Modelled from the spec: the classifier protocol tag for TCP
(`PROTO_TCP`, defined in a header not under the provided sources; only its
distinctness from `PROTO_UDP` matters). -/
def PROTO_TCP : Nat := 0

/-- Modelled from the spec: the classifier protocol tag for UDP. -/
def PROTO_UDP : Nat := 1

/-- Modelled from the spec: the classifier action tag for connect. -/
def ACTION_CONNECT : Nat := 0

/-- Modelled from the spec: the classifier action tag for accept. -/
def ACTION_ACCEPT : Nat := 1

/-- Modelled from the spec: the classifier action tag for close. -/
def ACTION_CLOSE : Nat := 2

/-- Modelled from the spec: the classifier action tag for bind. -/
def ACTION_BIND : Nat := 3

/-- Bitwise complement of a `u32` value: `~x` at width 32. -/
def NOT32 (x : Nat) : Nat := (2 ^ 32 - 1) ^^^ x

/-- Bitwise complement of an `unsigned long` (64-bit) value: `~x` at width 64. -/
def NOT64 (x : Nat) : Nat := (2 ^ 64 - 1) ^^^ x

/-! ## Registry data model -/

/-- The five physical interception points of `probes.c`:
`stream_connect_kretprobe`, `accept_kretprobe`, `close_jprobe`
(shared by the TCP_CLOSE/UDP_CLOSE pair), `dgram_connect_kretprobe`,
`bind_kretprobe`. -/
inductive Phys where
  | streamConnect
  | acceptProbe
  | closeJprobe
  | dgramConnect
  | bindProbe
deriving DecidableEq

/-- A call issued to the instrumentation subsystem: a
`plant_kretprobe`/`plant_jprobe` call together with its return value, or an
`unplant_kretprobe`/`unplant_jprobe` call. -/
inductive Ev where
  | plantCall (p : Phys) (ret : Int)
  | unplantCall (p : Phys)
deriving DecidableEq

/-- The running state of one `plant_probes` invocation: the local `err`,
the global `loaded_probes`, and the instrumentation calls issued so far. -/
structure PSt where
  err : Int
  loaded : Nat
  evs : List Ev
deriving DecidableEq

/-- The registry's global mutable state: `static u8 initialized` and
`static u32 loaded_probes`. -/
structure Reg where
  initialized : Nat
  loaded : Nat
deriving DecidableEq

/-- Early-return sequencing for the statement blocks of `plant_probes`:
a `return` inside a block (`Except.error`) skips the remaining blocks. -/
def chainStep (x : Except PSt PSt) (f : PSt → Except PSt PSt) : Except PSt PSt :=
  match x with
  | .error s => .error s
  | .ok s => f s

/-- One kretprobe block of `plant_probes` (the `PROBE_TCP_CONNECT`,
`PROBE_TCP_ACCEPT`, `PROBE_UDP_CONNECT` and `PROBE_UDP_BIND` blocks all have
this shape): if the bit is requested, call `plant_kretprobe`; on failure
return the negated family tag, otherwise set the bit in `loaded_probes`.
`neFail` is `true` for the `PROBE_UDP_CONNECT` block, whose failure test is
`if (err)` rather than `if (err < 0)`. -/
def stepKret (ok : Phys → Int) (p : Phys) (tag : Int) (bit : Nat) (neFail : Bool)
    (new_probes : Nat) (s : PSt) : Except PSt PSt :=
  if new_probes &&& (1 <<< bit) ≠ 0 then
    let e := ok p
    let evs := s.evs ++ [.plantCall p e]
    if (if neFail then e ≠ 0 else e < 0) then .error ⟨-tag, s.loaded, evs⟩
    else .ok ⟨e, s.loaded ||| (1 <<< bit), evs⟩
  else .ok s

/-- The `PROBE_TCP_CLOSE` block of `plant_probes`: plant the shared
`close_jprobe` only if `PROBE_UDP_CLOSE` is not already loaded; the
`PROBE_TCP_CLOSE` bit is set whenever the block does not return early. -/
def step_tcp_close (ok : Phys → Int) (new_probes : Nat) (s : PSt) : Except PSt PSt :=
  if new_probes &&& (1 <<< PROBE_TCP_CLOSE) ≠ 0 then
    if s.loaded &&& (1 <<< PROBE_UDP_CLOSE) = 0 then
      let e := ok .closeJprobe
      let evs := s.evs ++ [.plantCall .closeJprobe e]
      if e < 0 then .error ⟨-CLOSE_PROBE_FAILED, s.loaded, evs⟩
      else .ok ⟨e, s.loaded ||| (1 <<< PROBE_TCP_CLOSE), evs⟩
    else .ok ⟨s.err, s.loaded ||| (1 <<< PROBE_TCP_CLOSE), s.evs⟩
  else .ok s

/-- The `PROBE_UDP_CLOSE` block of `plant_probes`: plant the shared
`close_jprobe` only if `PROBE_TCP_CLOSE` is not already loaded. -/
def step_udp_close (ok : Phys → Int) (new_probes : Nat) (s : PSt) : Except PSt PSt :=
  if new_probes &&& (1 <<< PROBE_UDP_CLOSE) ≠ 0 then
    if s.loaded &&& (1 <<< PROBE_TCP_CLOSE) = 0 then
      let e := ok .closeJprobe
      let evs := s.evs ++ [.plantCall .closeJprobe e]
      if e < 0 then .error ⟨-CLOSE_PROBE_FAILED, s.loaded, evs⟩
      else .ok ⟨e, s.loaded ||| (1 <<< PROBE_UDP_CLOSE), evs⟩
    else .ok ⟨s.err, s.loaded ||| (1 <<< PROBE_UDP_CLOSE), s.evs⟩
  else .ok s

/-- `plant_probes(u32 new_probes)` (probes.c:371-423): six blocks in source
order, threading `err` and `loaded_probes`; an early `return` yields the
`.error` state, the final `return err` yields the `.ok` state. -/
def plant_probes (ok : Phys → Int) (new_probes loaded : Nat) : PSt :=
  let r :=
    chainStep (chainStep (chainStep (chainStep (chainStep
      (stepKret ok .streamConnect CONNECT_PROBE_FAILED PROBE_TCP_CONNECT false new_probes
        ⟨0, loaded, []⟩)
      (stepKret ok .acceptProbe ACCEPT_PROBE_FAILED PROBE_TCP_ACCEPT false new_probes))
      (step_tcp_close ok new_probes))
      (stepKret ok .dgramConnect CONNECT_PROBE_FAILED PROBE_UDP_CONNECT true new_probes))
      (stepKret ok .bindProbe BIND_PROBE_FAILED PROBE_UDP_BIND false new_probes))
      (step_udp_close ok new_probes)
  match r with
  | .ok s => s
  | .error s => s

/-- `unplant_probes(u32 removed_probes)` (probes.c:337-358):
`loaded_probes ^= removed_probes`, then one unplant per removed kretprobe bit,
and the shared `close_jprobe` is unplanted only when, after the XOR, neither
close bit remains loaded.  Returns the new `loaded_probes` and the issued
calls, in source order. -/
def unplant_probes (removed_probes loaded : Nat) : Nat × List Ev :=
  let l := loaded ^^^ removed_probes
  let closeBits := (1 <<< PROBE_TCP_CLOSE) ||| (1 <<< PROBE_UDP_CLOSE)
  let evs :=
    (if removed_probes &&& (1 <<< PROBE_TCP_CONNECT) ≠ 0 then
      [Ev.unplantCall .streamConnect] else []) ++
    (if removed_probes &&& (1 <<< PROBE_TCP_ACCEPT) ≠ 0 then
      [Ev.unplantCall .acceptProbe] else []) ++
    (if removed_probes &&& closeBits ≠ 0 then
      (if l &&& closeBits = 0 then [Ev.unplantCall .closeJprobe] else []) else []) ++
    (if removed_probes &&& (1 <<< PROBE_UDP_CONNECT) ≠ 0 then
      [Ev.unplantCall .dgramConnect] else []) ++
    (if removed_probes &&& (1 <<< PROBE_UDP_BIND) ≠ 0 then
      [Ev.unplantCall .bindProbe] else [])
  (l, evs)

/-- `unplant_all(void)` (probes.c:360-369): unplant everything currently
loaded, under the lock. -/
def unplant_all (r : Reg) : Reg × List Ev :=
  let (l, evs) := unplant_probes r.loaded r.loaded
  (⟨r.initialized, l⟩, evs)

/-- `probes_init(void)` (probes.c:434-449), with `DEFAULT_PROBES` passed as
the parameter `df` (its value lives in a header not under the provided
sources).  Note the guard is `if (initialized != 0)`, as in the source.
Returns `(ret, new registry state, issued instrumentation calls)`. -/
def probes_init (ok : Phys → Int) (df : Nat) (r : Reg) : Int × Reg × List Ev :=
  if r.initialized ≠ 0 then
    let p := plant_probes ok df r.loaded
    if p.err ≥ 0 then (p.err, ⟨1, p.loaded⟩, p.evs)
    else (p.err, ⟨r.initialized, p.loaded⟩, p.evs)
  else (0, r, [])

/-- The reconcile body of `all_probes_param_set` (probes.c:486-491):
`probes_to_add` and `probes_to_remove` are both computed from the entry value
of `loaded_probes`, then `unplant_probes(probes_to_remove)` runs before
`plant_probes(probes_to_add)`.  `wanted` is an `unsigned long`, so `~wanted`
is a 64-bit complement; `~loaded_probes` is a 32-bit complement. -/
def reconcile_core (ok : Phys → Int) (wanted ini loaded : Nat) (evs0 : List Ev) :
    Int × Reg × List Ev :=
  let probes_to_add := wanted &&& NOT32 loaded
  let probes_to_remove := NOT64 wanted &&& loaded
  let u := unplant_probes probes_to_remove loaded
  let p := plant_probes ok probes_to_add u.1
  (p.err, ⟨ini, p.loaded⟩, evs0 ++ u.2 ++ p.evs)

/-- `all_probes_param_set` (probes.c:455-495), after the administrative text
parse: the first-use prelude (guarded by `if (initialized != 0)`, as in the
source; on prelude failure control jumps to `fail`), then the mask diff and
reconcile. -/
def all_probes_param_set (ok : Phys → Int) (df wanted : Nat) (r : Reg) :
    Int × Reg × List Ev :=
  if r.initialized ≠ 0 then
    let p := plant_probes ok df r.loaded
    if p.err < 0 then (p.err, ⟨r.initialized, p.loaded⟩, p.evs)
    else reconcile_core ok wanted 1 p.loaded p.evs
  else reconcile_core ok wanted r.initialized r.loaded []

/-- The value branch of `one_probe_param_set` (probes.c:558-564): plant the
probe's mask only if some of its bits are not yet loaded; unplant it only if
some of its bits are loaded.  `ret0` is the value `ret` holds on entry to
this part (0, or the prelude's non-negative result). -/
def one_probe_core (ok : Phys → Int) (pm v ini loaded : Nat) (evs0 : List Ev)
    (ret0 : Int) : Int × Reg × List Ev :=
  if v ≠ 0 then
    if pm &&& NOT32 loaded ≠ 0 then
      let p := plant_probes ok pm loaded
      (p.err, ⟨ini, p.loaded⟩, evs0 ++ p.evs)
    else (ret0, ⟨ini, loaded⟩, evs0)
  else
    if pm &&& loaded ≠ 0 then
      let u := unplant_probes pm loaded
      (ret0, ⟨ini, u.1⟩, evs0 ++ u.2)
    else (ret0, ⟨ini, loaded⟩, evs0)

/-- `one_probe_param_set` (probes.c:523-569), after the administrative text
parse and null-argument check: `pm` is `probe->mask` (a single `probe_list`
bit), `v` the parsed value; the first-use prelude precedes the toggle. -/
def one_probe_param_set (ok : Phys → Int) (df pm v : Nat) (r : Reg) :
    Int × Reg × List Ev :=
  if r.initialized ≠ 0 then
    let p := plant_probes ok df r.loaded
    if p.err < 0 then (p.err, ⟨r.initialized, p.loaded⟩, p.evs)
    else one_probe_core ok pm v 1 p.loaded p.evs p.err
  else one_probe_core ok pm v r.initialized r.loaded [] 0

/-! ## Classifier data model -/

/-- An address a classifier record points at: either the IPv4 fields of
`inet_sk` or the IPv6 fields (`sk_v6_daddr` / `inet6_sk` fields). -/
inductive Addr where
  | v4 (a : Nat)
  | v6 (a : Nat)
deriving DecidableEq

/-- The socket inner state `sock->sk` (with its `inet_sk`/`inet6_sk` views):
`sk_family`, `sk_protocol`, the network-order ports `SPORT`/`DPORT`, the IPv4
addresses `SADDR`/`DADDR`, and the IPv6 source/destination fields (the
destination exists both as `sk_v6_daddr` and as `inet6_sk(sk)->daddr`,
selected by a kernel-version compile switch). -/
structure SockInner where
  family : Nat
  protocol : Nat
  sport : Nat
  dport : Nat
  v4saddr : Nat
  v4daddr : Nat
  i6saddr : Nat
  i6daddr : Nat
  skV6Daddr : Nat
deriving DecidableEq

/-- `struct socket`: its `sk` field may be null. -/
structure Sock where
  sk : Option SockInner
deriving DecidableEq

/-- The record handed to `store_netlog_record(path, action, protocol, family,
src_ip, src_port, dst_ip, dst_port)`. -/
structure NetRec where
  path : String
  action : Nat
  protocol : Nat
  family : Nat
  srcIp : Option Addr
  srcPort : Nat
  dstIp : Option Addr
  dstPort : Nat
deriving DecidableEq

/-- `ntohs` on a 16-bit network-order value: swap the two bytes. -/
def ntohs (x : Nat) : Nat := (x % 256) * 256 + x / 256 % 256

/-- The `switch (family)` of `log_if_not_whitelisted` (probes.c:100-117),
returning `(dst_ip, src_ip)`.  `ver313` is `LINUX_VERSION_CODE >
KERNEL_VERSION(3, 13, 0)`: when true the destination comes from
`sk_v6_daddr`, otherwise from `inet6_sk(sk)->daddr`; the source always comes
from `inet6_sk(sk)->saddr`.  Unrecognized families yield null for both. -/
def addrs_of_sk (ver313 : Bool) (sk : SockInner) : Option Addr × Option Addr :=
  if sk.family = AF_INET then
    (some (.v4 sk.v4daddr), some (.v4 sk.v4saddr))
  else if sk.family = AF_INET6 then
    (some (.v6 (if ver313 then sk.skV6Daddr else sk.i6daddr)), some (.v6 sk.i6saddr))
  else
    (none, none)

/-- `log_if_not_whitelisted(sock, protocol, action)` (probes.c:80-127),
for a socket whose `sock` and `sock->sk` are non-null (the function's stated
precondition).  `path?` is the result of `path_from_mm` (null when the
executable path is unresolvable); `wl` is the `is_whitelisted` decision
contract.  Returns the records passed to `store_netlog_record` (an empty
list when the invocation returns early or is suppressed). -/
def log_if_not_whitelisted (wl : String → Nat → Option Addr → Nat → Bool)
    (path? : Option String) (sk : SockInner) (protocol action : Nat)
    (ver313 : Bool) : List NetRec :=
  match path? with
  | none => []
  | some path =>
    let family := sk.family
    let dst_port := ntohs sk.dport
    let src_port := ntohs sk.sport
    let a := addrs_of_sk ver313 sk
    if wl path family a.1 dst_port then []
    else [⟨path, action, protocol, family, a.2, src_port, a.1, dst_port⟩]

/-- The classification decision of `pre_sys_close` (probes.c:205-234): which
close event, if any, this invocation requests emission of.  `curOk` is
`current != NULL`; `sock?` is the `sockfd_lookup` result. -/
def close_classify (loaded_probes : Nat) (curOk : Bool) (sock? : Option Sock) :
    Option (SockInner × Nat × Nat) :=
  match sock? with
  | none => none
  | some sock =>
    match sock.sk with
    | none => none
    | some sk =>
      if ¬curOk then none
      else if sk.family ≠ AF_INET ∧ sk.family ≠ AF_INET6 then none
      else if loaded_probes &&& (1 <<< PROBE_TCP_CLOSE) ≠ 0 ∧
              sk.protocol = IPPROTO_TCP ∧ sk.dport ≠ 0 then
        some (sk, PROTO_TCP, ACTION_CLOSE)
      else if loaded_probes &&& (1 <<< PROBE_UDP_CLOSE) ≠ 0 ∧
              sk.protocol = IPPROTO_UDP ∧ sk.sport ≠ 0 then
        some (sk, PROTO_UDP, ACTION_CLOSE)
      else none

/-- `pre_sys_close(fd)` (probes.c:205-234): resolve the descriptor, take the
early-out when `current`, the socket, or its inner state is null or the
family is neither `AF_INET` nor `AF_INET6`; then the TCP-close test (bit
loaded, protocol TCP, `DPORT != 0`) and, `else if`, the UDP-close test (bit
loaded, protocol UDP, `SPORT != 0`).  Returns the records stored by this
invocation. -/
def pre_sys_close (wl : String → Nat → Option Addr → Nat → Bool)
    (loaded_probes : Nat) (path? : Option String) (curOk : Bool)
    (sock? : Option Sock) (ver313 : Bool) : List NetRec :=
  match sock? with
  | none => []
  | some sock =>
    match sock.sk with
    | none => []
    | some sk =>
      if ¬curOk then []
      else if sk.family ≠ AF_INET ∧ sk.family ≠ AF_INET6 then []
      else if loaded_probes &&& (1 <<< PROBE_TCP_CLOSE) ≠ 0 ∧
              sk.protocol = IPPROTO_TCP ∧ sk.dport ≠ 0 then
        log_if_not_whitelisted wl path? sk PROTO_TCP ACTION_CLOSE ver313
      else if loaded_probes &&& (1 <<< PROBE_UDP_CLOSE) ≠ 0 ∧
              sk.protocol = IPPROTO_UDP ∧ sk.sport ≠ 0 then
        log_if_not_whitelisted wl path? sk PROTO_UDP ACTION_CLOSE ver313
      else []

/-! ## Bit-level helper lemmas -/

theorem land_two_pow_ne_zero_iff (x i : Nat) :
    x &&& (1 <<< i) ≠ 0 ↔ x.testBit i = true := by
  rw [Nat.one_shiftLeft]
  constructor
  · intro h
    by_contra hb
    apply h
    apply Nat.eq_of_testBit_eq
    intro j
    rw [Nat.testBit_and, Nat.zero_testBit, Nat.testBit_two_pow]
    rcases Decidable.em (i = j) with rfl | hne
    · simp [Bool.not_eq_true] at hb
      simp [hb]
    · simp [hne]
  · intro h hz
    have := congrArg (fun n => n.testBit i) hz
    simp [Nat.testBit_and, Nat.testBit_two_pow, h] at this

theorem land_eq_zero_iff_testBit (x y : Nat) :
    x &&& y = 0 ↔ ∀ i, ¬(x.testBit i = true ∧ y.testBit i = true) := by
  constructor
  · intro h i hi
    have := congrArg (fun n => n.testBit i) h
    simp [Nat.testBit_and, hi.1, hi.2] at this
  · intro h
    apply Nat.eq_of_testBit_eq
    intro j
    rw [Nat.testBit_and, Nat.zero_testBit]
    rcases hx : x.testBit j with _ | _
    · simp
    · rcases hy : y.testBit j with _ | _
      · simp
      · exact absurd ⟨hx, hy⟩ (h j)

theorem testBit_NOT32 (x i : Nat) (h : i < 32) :
    (NOT32 x).testBit i = !x.testBit i := by
  rw [NOT32, Nat.testBit_xor, Nat.testBit_two_pow_sub_one]
  simp [h]

theorem testBit_NOT64 (x i : Nat) (h : i < 64) :
    (NOT64 x).testBit i = !x.testBit i := by
  rw [NOT64, Nat.testBit_xor, Nat.testBit_two_pow_sub_one]
  simp [h]

theorem testBit_of_lt_64 (x i : Nat) (hx : x < 64) (hi : 6 ≤ i) :
    x.testBit i = false := by
  apply Nat.testBit_lt_two_pow
  calc x < 64 := hx
    _ = 2 ^ 6 := by norm_num
    _ ≤ 2 ^ i := Nat.pow_le_pow_right (by norm_num) hi

theorem testBit_of_lt_2_32 (x i : Nat) (hx : x < 2 ^ 32) (hi : 32 ≤ i) :
    x.testBit i = false := by
  apply Nat.testBit_lt_two_pow
  exact Nat.lt_of_lt_of_le hx (Nat.pow_le_pow_right (by norm_num) hi)

theorem land_le_left (x y : Nat) : x &&& y ≤ x := Nat.and_le_left

theorem xor_subset_lt (x y n : Nat) (hx : x < 2 ^ n) (hy : y < 2 ^ n) :
    x ^^^ y < 2 ^ n := Nat.xor_lt_two_pow hx hy

theorem lor_lt (x y n : Nat) (hx : x < 2 ^ n) (hy : y < 2 ^ n) :
    x ||| y < 2 ^ n := Nat.or_lt_two_pow hx hy

theorem land_two_pow_eq_zero_iff (x i : Nat) :
    x &&& (1 <<< i) = 0 ↔ x.testBit i = false := by
  have h1 := land_two_pow_ne_zero_iff x i
  constructor
  · intro hz
    rcases hb : x.testBit i with _ | _
    · rfl
    · exact absurd hz (h1.2 hb)
  · intro hf
    by_contra hnz
    have ht := h1.1 hnz
    rw [hf] at ht
    exact Bool.false_ne_true ht

theorem land_pow_of_ne_zero (new bit : Nat) (h : new &&& (1 <<< bit) ≠ 0) :
    new &&& (1 <<< bit) = 1 <<< bit := by
  have hb := (land_two_pow_ne_zero_iff new bit).1 h
  rw [Nat.one_shiftLeft] at *
  rw [Nat.and_two_pow, hb]
  simp

theorem lor_land_pow (x new bit : Nat) :
    x ||| (new &&& (1 <<< bit)) =
      (if new &&& (1 <<< bit) ≠ 0 then x ||| (1 <<< bit) else x) := by
  by_cases h : new &&& (1 <<< bit) ≠ 0
  · rw [if_pos h, land_pow_of_ne_zero new bit h]
  · rw [if_neg h]
    push_neg at h
    rw [h, Nat.or_zero]

/-! ## `plant_probes` step lemmas -/

theorem stepKret_noFail (ok : Phys → Int) (p : Phys) (tag : Int) (bit : Nat)
    (neFail : Bool) (new : Nat) (s : PSt)
    (h : new &&& (1 <<< bit) ≠ 0 →
      (if neFail then ok p ≠ 0 else ok p < 0) → False) :
    ∃ e evs, stepKret ok p tag bit neFail new s =
      .ok ⟨e, s.loaded ||| (new &&& (1 <<< bit)), evs⟩ := by
  rw [stepKret]
  by_cases hq : new &&& (1 <<< bit) ≠ 0
  · rw [if_pos hq, lor_land_pow, if_pos hq]
    have hs : (if neFail then ok p ≠ 0 else ok p < 0) = False := by
      simp only [eq_iff_iff, iff_false]
      intro hx
      exact h hq hx
    simp only [hs, if_false]
    exact ⟨ok p, s.evs ++ [.plantCall p (ok p)], rfl⟩
  · rw [if_neg hq, lor_land_pow, if_neg hq]
    exact ⟨s.err, s.evs, rfl⟩

theorem stepKret_fail (ok : Phys → Int) (p : Phys) (tag : Int) (bit : Nat)
    (neFail : Bool) (new : Nat) (s : PSt)
    (hq : new &&& (1 <<< bit) ≠ 0)
    (hs : if neFail then ok p ≠ 0 else ok p < 0) :
    stepKret ok p tag bit neFail new s =
      .error ⟨-tag, s.loaded, s.evs ++ [.plantCall p (ok p)]⟩ := by
  rw [stepKret, if_pos hq]
  simp only [hs, if_true]

theorem step_tcp_close_noFail (ok : Phys → Int) (new : Nat) (s : PSt)
    (h : new &&& (1 <<< PROBE_TCP_CLOSE) ≠ 0 →
      s.loaded &&& (1 <<< PROBE_UDP_CLOSE) = 0 → ok .closeJprobe < 0 → False) :
    ∃ e evs, step_tcp_close ok new s =
      .ok ⟨e, s.loaded ||| (new &&& (1 <<< PROBE_TCP_CLOSE)), evs⟩ := by
  rw [step_tcp_close]
  by_cases hq : new &&& (1 <<< PROBE_TCP_CLOSE) ≠ 0
  · rw [if_pos hq, lor_land_pow, if_pos hq]
    by_cases hg : s.loaded &&& (1 <<< PROBE_UDP_CLOSE) = 0
    · rw [if_pos hg]
      have hs : ¬ (ok .closeJprobe < 0) := fun hx => h hq hg hx
      simp only [hs, if_false]
      exact ⟨ok .closeJprobe, s.evs ++ [.plantCall .closeJprobe (ok .closeJprobe)], rfl⟩
    · rw [if_neg hg]
      exact ⟨s.err, s.evs, rfl⟩
  · rw [if_neg hq, lor_land_pow, if_neg hq]
    exact ⟨s.err, s.evs, rfl⟩

theorem step_tcp_close_fail (ok : Phys → Int) (new : Nat) (s : PSt)
    (hq : new &&& (1 <<< PROBE_TCP_CLOSE) ≠ 0)
    (hg : s.loaded &&& (1 <<< PROBE_UDP_CLOSE) = 0)
    (hs : ok .closeJprobe < 0) :
    step_tcp_close ok new s =
      .error ⟨-CLOSE_PROBE_FAILED, s.loaded,
        s.evs ++ [.plantCall .closeJprobe (ok .closeJprobe)]⟩ := by
  rw [step_tcp_close, if_pos hq, if_pos hg, if_pos hs]

theorem step_udp_close_noFail (ok : Phys → Int) (new : Nat) (s : PSt)
    (h : new &&& (1 <<< PROBE_UDP_CLOSE) ≠ 0 →
      s.loaded &&& (1 <<< PROBE_TCP_CLOSE) = 0 → ok .closeJprobe < 0 → False) :
    ∃ e evs, step_udp_close ok new s =
      .ok ⟨e, s.loaded ||| (new &&& (1 <<< PROBE_UDP_CLOSE)), evs⟩ := by
  rw [step_udp_close]
  by_cases hq : new &&& (1 <<< PROBE_UDP_CLOSE) ≠ 0
  · rw [if_pos hq, lor_land_pow, if_pos hq]
    by_cases hg : s.loaded &&& (1 <<< PROBE_TCP_CLOSE) = 0
    · rw [if_pos hg]
      have hs : ¬ (ok .closeJprobe < 0) := fun hx => h hq hg hx
      simp only [hs, if_false]
      exact ⟨ok .closeJprobe, s.evs ++ [.plantCall .closeJprobe (ok .closeJprobe)], rfl⟩
    · rw [if_neg hg]
      exact ⟨s.err, s.evs, rfl⟩
  · rw [if_neg hq, lor_land_pow, if_neg hq]
    exact ⟨s.err, s.evs, rfl⟩

theorem step_udp_close_fail (ok : Phys → Int) (new : Nat) (s : PSt)
    (hq : new &&& (1 <<< PROBE_UDP_CLOSE) ≠ 0)
    (hg : s.loaded &&& (1 <<< PROBE_TCP_CLOSE) = 0)
    (hs : ok .closeJprobe < 0) :
    step_udp_close ok new s =
      .error ⟨-CLOSE_PROBE_FAILED, s.loaded,
        s.evs ++ [.plantCall .closeJprobe (ok .closeJprobe)]⟩ := by
  rw [step_udp_close, if_pos hq, if_pos hg, if_pos hs]

theorem lor_cascade (l new : Nat) :
    l ||| (new &&& (1 <<< PROBE_TCP_CONNECT)) ||| (new &&& (1 <<< PROBE_TCP_ACCEPT)) |||
      (new &&& (1 <<< PROBE_TCP_CLOSE)) ||| (new &&& (1 <<< PROBE_UDP_CONNECT)) |||
      (new &&& (1 <<< PROBE_UDP_BIND)) ||| (new &&& (1 <<< PROBE_UDP_CLOSE)) =
      l ||| (new &&& 63) := by
  apply Nat.eq_of_testBit_eq
  intro i
  have h63 : (63 : Nat) = 2 ^ 6 - 1 := by norm_num
  simp only [PROBE_TCP_CONNECT, PROBE_TCP_ACCEPT, PROBE_TCP_CLOSE, PROBE_UDP_CONNECT,
    PROBE_UDP_BIND, PROBE_UDP_CLOSE, Nat.one_shiftLeft, Nat.testBit_or, Nat.testBit_and,
    Nat.testBit_two_pow, h63, Nat.testBit_two_pow_sub_one]
  by_cases hi : i < 6
  · interval_cases i <;> simp
  · have hd : ∀ k, k < 6 → (decide (k = i)) = false := by
      intro k hk
      simp only [decide_eq_false_iff_not]
      omega
    simp [hd 0 (by norm_num), hd 1 (by norm_num), hd 2 (by norm_num), hd 3 (by norm_num),
      hd 4 (by norm_num), hd 5 (by norm_num), hi]

theorem plant_probes_success (ok : Phys → Int) (new l : Nat) (hok : ∀ p, ok p = 0) :
    (plant_probes ok new l).loaded = l ||| (new &&& 63) := by
  have hkf : ∀ (p : Phys) (tag : Int) (bit : Nat) (ne : Bool) (s : PSt),
      ∃ e evs, stepKret ok p tag bit ne new s =
        .ok ⟨e, s.loaded ||| (new &&& (1 <<< bit)), evs⟩ := by
    intro p tag bit ne s
    apply stepKret_noFail
    intro _ hs
    rcases ne <;> simp [hok] at hs
  obtain ⟨e1, v1, h1⟩ := hkf .streamConnect CONNECT_PROBE_FAILED PROBE_TCP_CONNECT false
    ⟨0, l, []⟩
  obtain ⟨e2, v2, h2⟩ := hkf .acceptProbe ACCEPT_PROBE_FAILED PROBE_TCP_ACCEPT false
    ⟨e1, l ||| (new &&& (1 <<< PROBE_TCP_CONNECT)), v1⟩
  obtain ⟨e3, v3, h3⟩ := step_tcp_close_noFail ok new
    ⟨e2, l ||| (new &&& (1 <<< PROBE_TCP_CONNECT)) ||| (new &&& (1 <<< PROBE_TCP_ACCEPT)), v2⟩
    (by intro _ _ hs; rw [hok] at hs; simp at hs)
  obtain ⟨e4, v4, h4⟩ := hkf .dgramConnect CONNECT_PROBE_FAILED PROBE_UDP_CONNECT true
    ⟨e3, l ||| (new &&& (1 <<< PROBE_TCP_CONNECT)) ||| (new &&& (1 <<< PROBE_TCP_ACCEPT)) |||
      (new &&& (1 <<< PROBE_TCP_CLOSE)), v3⟩
  obtain ⟨e5, v5, h5⟩ := hkf .bindProbe BIND_PROBE_FAILED PROBE_UDP_BIND false
    ⟨e4, l ||| (new &&& (1 <<< PROBE_TCP_CONNECT)) ||| (new &&& (1 <<< PROBE_TCP_ACCEPT)) |||
      (new &&& (1 <<< PROBE_TCP_CLOSE)) ||| (new &&& (1 <<< PROBE_UDP_CONNECT)), v4⟩
  obtain ⟨e6, v6, h6⟩ := step_udp_close_noFail ok new
    ⟨e5, l ||| (new &&& (1 <<< PROBE_TCP_CONNECT)) ||| (new &&& (1 <<< PROBE_TCP_ACCEPT)) |||
      (new &&& (1 <<< PROBE_TCP_CLOSE)) ||| (new &&& (1 <<< PROBE_UDP_CONNECT)) |||
      (new &&& (1 <<< PROBE_UDP_BIND)), v5⟩
    (by intro _ _ hs; rw [hok] at hs; simp at hs)
  rw [plant_probes, h1]
  simp only [chainStep]
  rw [h2]
  simp only [chainStep]
  rw [h3]
  simp only [chainStep]
  rw [h4]
  simp only [chainStep]
  rw [h5]
  simp only [chainStep]
  rw [h6]
  exact lor_cascade l new

theorem reconcile_core_loaded (ok : Phys → Int) (wanted ini l : Nat) (evs0 : List Ev)
    (hok : ∀ p, ok p = 0) :
    (reconcile_core ok wanted ini l evs0).2.1.loaded =
      (l ^^^ (NOT64 wanted &&& l)) ||| ((wanted &&& NOT32 l) &&& 63) := by
  rw [reconcile_core]
  simp only [unplant_probes]
  exact plant_probes_success ok (wanted &&& NOT32 l) (l ^^^ (NOT64 wanted &&& l)) hok

theorem reconcile_core_loaded_lt (ok : Phys → Int) (wanted ini l : Nat) (evs0 : List Ev)
    (hok : ∀ p, ok p = 0) (hl : l < 2 ^ 32) :
    (reconcile_core ok wanted ini l evs0).2.1.loaded < 2 ^ 32 := by
  rw [reconcile_core_loaded ok wanted ini l evs0 hok]
  apply lor_lt
  · exact xor_subset_lt l _ 32 hl (Nat.lt_of_le_of_lt Nat.and_le_right hl)
  · exact Nat.lt_of_le_of_lt Nat.and_le_right (by norm_num)

theorem reconcile_converges (ok : Phys → Int) (wanted ini l : Nat) (evs0 : List Ev)
    (hok : ∀ p, ok p = 0) (hl : l < 2 ^ 32) (hw : wanted < 64) :
    (reconcile_core ok wanted ini l evs0).2.1.loaded = wanted := by
  rw [reconcile_core_loaded ok wanted ini l evs0 hok]
  apply Nat.eq_of_testBit_eq
  intro i
  have h63 : (63 : Nat) = 2 ^ 6 - 1 := by norm_num
  simp only [Nat.testBit_or, Nat.testBit_xor, Nat.testBit_and, NOT32, NOT64,
    Nat.testBit_two_pow_sub_one, h63]
  by_cases h6 : i < 6
  · have h32 : i < 32 := by omega
    have h64 : i < 64 := by omega
    simp only [h6, h32, h64, decide_True]
    cases hlb : l.testBit i <;> cases hwb : wanted.testBit i <;> simp
  · have hw' : wanted.testBit i = false := testBit_of_lt_64 wanted i hw (by omega)
    by_cases h32 : i < 32
    · simp [h6, h32, (by omega : i < 64), hw']
    · have hl' : l.testBit i = false := testBit_of_lt_2_32 l i hl (by omega)
      by_cases h64 : i < 64 <;> simp [h6, h32, h64, hw', hl']

/-! ## Claims about the registry (C2, C3, C5, C10) -/

/-- C2: evaluation of the code at the claim's failing input.  In the initial,
not-yet-configured state (`initialized = 0`, as `static u8 initialized` is on
module load), `probes_init` installs nothing, issues no instrumentation call,
leaves the registry untouched (in particular `initialized` stays 0), and
returns 0 — because its guard is `if (initialized != 0)`, which is false in
exactly the not-yet-configured state the function's own comment says it
handles.  The claim (first-use installation of `DEFAULT_PROBES`) therefore
fails on the code, for every default mask and every oracle. -/
theorem netlog_c2_probes_init_noop (ok : Phys → Int) (df l : Nat) :
    probes_init ok df ⟨0, l⟩ = (0, ⟨0, l⟩, []) := by
  rw [probes_init]
  simp

/-- C3 counterexample: `unplant_probes` performs `loaded_probes ^=
removed_probes`, an XOR, not an AND-NOT.  Uninstalling a bit that is clear
(requested mask `m = 1 <<< PROBE_TCP_CONNECT`, active mask `a = 0`) *sets*
that bit: the result is not `a &&& ~m`, and a bit that was clear becomes
set — refuting the claim as stated for arbitrary `m` and `a`. -/
theorem netlog_c3_counterexample :
    (unplant_probes (1 <<< PROBE_TCP_CONNECT) 0).1.testBit PROBE_TCP_CONNECT = true ∧
    (0 : Nat).testBit PROBE_TCP_CONNECT = false ∧
    (unplant_probes (1 <<< PROBE_TCP_CONNECT) 0).1 ≠ 0 &&& NOT32 (1 <<< PROBE_TCP_CONNECT) := by
  refine ⟨by decide, by decide, ?_⟩
  intro h
  rw [unplant_probes] at h
  simp [PROBE_TCP_CONNECT] at h

/-- C3 amended: for every requested mask `m` whose bits are all contained in
the current active mask `a` (`m &&& a = m`, which holds at every call site in
the repository: `unplant_all` passes `loaded_probes` itself,
`all_probes_param_set` passes `~wanted & loaded`, and `one_probe_param_set`
unplants only when `probe->mask & loaded` is non-zero), `unplant_probes`
leaves the mask equal to `a &&& ~m` and never sets a bit that was clear; it
returns no error (the function is `void`; the model returns only the new
mask and the issued calls). -/
theorem netlog_c3_unplant_clears (a m : Nat) (ha : a < 2 ^ 32) (hm : m &&& a = m) :
    (unplant_probes m a).1 = a &&& NOT32 m ∧
    (∀ i, (unplant_probes m a).1.testBit i = true → a.testBit i = true) := by
  have hsub : ∀ i, m.testBit i = true → a.testBit i = true := by
    intro i hmi
    have := congrArg (fun n => n.testBit i) hm
    simp only [Nat.testBit_and, hmi, Bool.true_and] at this
    exact this
  have hmlt : m < 2 ^ 32 := by
    calc m = m &&& a := hm.symm
      _ ≤ a := Nat.and_le_right
      _ < 2 ^ 32 := ha
  have hmain : (unplant_probes m a).1 = a &&& NOT32 m := by
    rw [unplant_probes]
    apply Nat.eq_of_testBit_eq
    intro i
    simp only [Nat.testBit_xor, Nat.testBit_and]
    by_cases hi : i < 32
    · rw [testBit_NOT32 m i hi]
      rcases hmb : m.testBit i with _ | _
      · simp
      · simp [hsub i hmb]
    · rw [testBit_of_lt_2_32 a i ha (by omega), testBit_of_lt_2_32 m i hmlt (by omega)]
      simp
  refine ⟨hmain, ?_⟩
  intro i hb
  rw [hmain, Nat.testBit_and] at hb
  exact (Bool.and_eq_true_iff.1 hb).1

/-- C3 witness: concrete instance of the amended claim, at `a = 5`, `m = 1`. -/
theorem netlog_c3_unplant_clears_witness :
    (unplant_probes 1 5).1 = 5 &&& NOT32 1 ∧
    (∀ i, (unplant_probes 1 5).1.testBit i = true → (5 : Nat).testBit i = true) :=
  netlog_c3_unplant_clears 5 1 (by norm_num) (by norm_num)

/-- C5: reconcile convergence.  Starting from any registry state that the
module can reach (`initialized = 0` — nothing in the code ever sets it, since
the only assignments sit inside `if (initialized != 0)` branches — and a
32-bit mask), running `all_probes_param_set` with wanted mask `A` and then
with wanted mask `B` leaves `loaded_probes` equal to `B`, provided every
instrumentation plant succeeds (`ok p = 0`) and `B` is a mask over the six
probe kinds (`B < 64`, the spec's `ActiveMask` domain; bits of `B` outside
the six-kind enumeration would be silently ignored by `plant_probes`).
`A` is unrestricted. -/
theorem netlog_c5_reconcile_convergence (ok : Phys → Int) (df A B l₀ : Nat)
    (hok : ∀ p, ok p = 0) (hl : l₀ < 2 ^ 32) (hB : B < 64) :
    ((all_probes_param_set ok df B
        (all_probes_param_set ok df A ⟨0, l₀⟩).2.1).2.1).loaded = B := by
  have h1 : all_probes_param_set ok df A ⟨0, l₀⟩ = reconcile_core ok A 0 l₀ [] := by
    rw [all_probes_param_set]
    simp
  rw [h1]
  have hin : (reconcile_core ok A 0 l₀ []).2.1.initialized = 0 := rfl
  have h2 : all_probes_param_set ok df B (reconcile_core ok A 0 l₀ []).2.1 =
      reconcile_core ok B ((reconcile_core ok A 0 l₀ []).2.1).initialized
        ((reconcile_core ok A 0 l₀ []).2.1).loaded [] := by
    rw [all_probes_param_set, if_neg]
    simp [hin]
  rw [h2]
  exact reconcile_converges ok B _ _ []
    hok (reconcile_core_loaded_lt ok A 0 l₀ [] hok hl) hB

/-- C5 witness: concrete instance, `A = 21`, `B = 3`, from `loaded = 9`. -/
theorem netlog_c5_reconcile_convergence_witness :
    ((all_probes_param_set (fun _ => 0) 0 3
        (all_probes_param_set (fun _ => 0) 0 21 ⟨0, 9⟩).2.1).2.1).loaded = 3 :=
  netlog_c5_reconcile_convergence (fun _ => 0) 0 21 3 9 (fun _ => rfl)
    (by norm_num) (by norm_num)

/-- C10: single-bit toggle idempotence.  In any reachable registry state
(`initialized = 0`, see `netlog_c5_reconcile_convergence`), setting a single
probe's parameter to an already-honoured value is a complete no-op:
enabling a probe kind whose bit is already set, or disabling one whose bit is
already clear, issues zero plant/unplant calls, leaves `loaded_probes`
unchanged, and returns 0 (success). -/
theorem netlog_c10_toggle_idempotent (ok : Phys → Int) (df v k l : Nat)
    (hk : k < 6) (hv : v ≠ 0) :
    (l.testBit k = true → one_probe_param_set ok df (1 <<< k) v ⟨0, l⟩ = (0, ⟨0, l⟩, [])) ∧
    (l.testBit k = false → one_probe_param_set ok df (1 <<< k) 0 ⟨0, l⟩ = (0, ⟨0, l⟩, [])) := by
  have hstart : ∀ pm v', one_probe_param_set ok df pm v' ⟨0, l⟩ =
      one_probe_core ok pm v' 0 l [] 0 := by
    intro pm v'
    rw [one_probe_param_set]
    simp
  constructor
  · intro hb
    rw [hstart, one_probe_core, if_pos hv, if_neg]
    have hc : (1 <<< k) &&& NOT32 l = NOT32 l &&& (1 <<< k) := Nat.and_comm ..
    rw [hc]
    simp only [ne_eq, Decidable.not_not]
    rw [land_two_pow_eq_zero_iff, testBit_NOT32 l k (by omega), hb]
    rfl
  · intro hb
    rw [hstart, one_probe_core, if_neg (by simp), if_neg]
    have hc : (1 <<< k) &&& l = l &&& (1 <<< k) := Nat.and_comm ..
    rw [hc]
    simp only [ne_eq, Decidable.not_not]
    rw [land_two_pow_eq_zero_iff, hb]

/-- C10 witness: concrete instances — enable TCP_CONNECT when already
enabled (`l = 1`), and disable it when already disabled. -/
theorem netlog_c10_toggle_idempotent_witness :
    one_probe_param_set (fun _ => 0) 0 (1 <<< PROBE_TCP_CONNECT) 1 ⟨0, 1⟩ = (0, ⟨0, 1⟩, []) ∧
    one_probe_param_set (fun _ => 0) 0 (1 <<< PROBE_TCP_CONNECT) 0 ⟨0, 0⟩ = (0, ⟨0, 0⟩, []) :=
  ⟨(netlog_c10_toggle_idempotent (fun _ => 0) 0 1 PROBE_TCP_CONNECT 1
      (by norm_num [PROBE_TCP_CONNECT]) (by norm_num)).1 (by decide),
   (netlog_c10_toggle_idempotent (fun _ => 0) 0 1 PROBE_TCP_CONNECT 0
      (by norm_num [PROBE_TCP_CONNECT]) (by norm_num)).2 (by decide)⟩

/-! ## Classifier lemmas -/

theorem log_if_length_le_one (wl : String → Nat → Option Addr → Nat → Bool)
    (path? : Option String) (sk : SockInner) (pr ac : Nat) (v : Bool) :
    (log_if_not_whitelisted wl path? sk pr ac v).length ≤ 1 := by
  rcases path? with _ | path
  · simp [log_if_not_whitelisted]
  · simp only [log_if_not_whitelisted]
    split <;> simp

theorem log_if_mem_fields (wl : String → Nat → Option Addr → Nat → Bool)
    (path? : Option String) (sk : SockInner) (pr ac : Nat) (v : Bool) :
    ∀ r ∈ log_if_not_whitelisted wl path? sk pr ac v,
      r.protocol = pr ∧ r.action = ac := by
  intro r hr
  rcases path? with _ | path
  · simp [log_if_not_whitelisted] at hr
  · simp only [log_if_not_whitelisted] at hr
    revert hr
    split
    · intro hr
      simp at hr
    · intro hr
      rcases List.mem_singleton.1 hr with rfl
      exact ⟨rfl, rfl⟩

theorem pre_sys_close_eq_classify (wl : String → Nat → Option Addr → Nat → Bool)
    (l : Nat) (p : Option String) (c : Bool) (s : Option Sock) (v : Bool) :
    pre_sys_close wl l p c s v =
      match close_classify l c s with
      | none => []
      | some (sk, pr, ac) => log_if_not_whitelisted wl p sk pr ac v := by
  rcases s with _ | ⟨sk?⟩
  · rfl
  rcases sk? with _ | sk
  · rfl
  simp only [pre_sys_close, close_classify]
  by_cases hc : ¬c = true
  · simp [hc]
  by_cases hf : sk.family ≠ AF_INET ∧ sk.family ≠ AF_INET6
  · simp [hc, hf]
  by_cases ht : l &&& (1 <<< PROBE_TCP_CLOSE) ≠ 0 ∧ sk.protocol = IPPROTO_TCP ∧ sk.dport ≠ 0
  · simp [hc, hf, ht]
  by_cases hu : l &&& (1 <<< PROBE_UDP_CLOSE) ≠ 0 ∧ sk.protocol = IPPROTO_UDP ∧ sk.sport ≠ 0
  · simp [hc, hf, ht, hu, IPPROTO_TCP, IPPROTO_UDP]
  · simp [hc, hf, ht, hu]

theorem close_classify_of_tcp (l : Nat) (c : Bool) (sk : SockInner)
    (hproto : sk.protocol = IPPROTO_TCP) :
    close_classify l c (some ⟨some sk⟩) = none ∨
    close_classify l c (some ⟨some sk⟩) = some (sk, PROTO_TCP, ACTION_CLOSE) := by
  simp only [close_classify]
  by_cases hc : ¬c = true
  · simp [hc]
  by_cases hf : sk.family ≠ AF_INET ∧ sk.family ≠ AF_INET6
  · simp [hc, hf]
  by_cases ht : l &&& (1 <<< PROBE_TCP_CLOSE) ≠ 0 ∧ sk.protocol = IPPROTO_TCP ∧ sk.dport ≠ 0
  · simp [hc, hf, ht]
  have hu : ¬(l &&& (1 <<< PROBE_UDP_CLOSE) ≠ 0 ∧ sk.protocol = IPPROTO_UDP ∧ sk.sport ≠ 0) := by
    rintro ⟨-, hp, -⟩
    rw [hproto] at hp
    rw [IPPROTO_TCP, IPPROTO_UDP] at hp
    omega
  simp [hc, hf, ht, hu]

/-! ## Claims about the classifier (C6, C7, C8, C9) -/

/-- C6: close classification precedence.  In one invocation of
`pre_sys_close` at most one record is produced, and — because the TCP case is
tested before the UDP case by an `else if` on the single `sk_protocol`
discriminant — a TCP socket with both the TCP_CLOSE and UDP_CLOSE bits active
can never yield a UDP-close record, regardless of the socket's port
values. -/
theorem netlog_c6_close_precedence (wl : String → Nat → Option Addr → Nat → Bool)
    (l : Nat) (p : Option String) (c : Bool) (sk : SockInner) (v : Bool)
    (hproto : sk.protocol = IPPROTO_TCP)
    (hbitT : l &&& (1 <<< PROBE_TCP_CLOSE) ≠ 0)
    (hbitU : l &&& (1 <<< PROBE_UDP_CLOSE) ≠ 0) :
    (pre_sys_close wl l p c (some ⟨some sk⟩) v).length ≤ 1 ∧
    ∀ r ∈ pre_sys_close wl l p c (some ⟨some sk⟩) v, r.protocol ≠ PROTO_UDP := by
  rw [pre_sys_close_eq_classify]
  rcases close_classify_of_tcp l c sk hproto with h | h <;> rw [h]
  · simp
  · refine ⟨log_if_length_le_one wl p sk PROTO_TCP ACTION_CLOSE v, ?_⟩
    intro r hr
    have := (log_if_mem_fields wl p sk PROTO_TCP ACTION_CLOSE v r hr).1
    rw [this, PROTO_TCP, PROTO_UDP]
    omega

/-- C6 witness: a TCP socket (`sk_protocol = 6`) with ports 1/1 and both
close bits set in the mask (`36`); the invocation yields at most one record
and no UDP-close record. -/
theorem netlog_c6_close_precedence_witness :
    (pre_sys_close (fun _ _ _ _ => false) 36 (some "/bin/a") true
        (some ⟨some ⟨2, 6, 1, 1, 0, 0, 0, 0, 0⟩⟩) true).length ≤ 1 ∧
    ∀ r ∈ pre_sys_close (fun _ _ _ _ => false) 36 (some "/bin/a") true
        (some ⟨some ⟨2, 6, 1, 1, 0, 0, 0, 0, 0⟩⟩) true, r.protocol ≠ PROTO_UDP :=
  netlog_c6_close_precedence (fun _ _ _ _ => false) 36 (some "/bin/a") true
    ⟨2, 6, 1, 1, 0, 0, 0, 0, 0⟩ true rfl (by decide) (by decide)

/-- C7: close liveness filter.  `pre_sys_close` requests emission of a TCP
close event (classification `some (sk, PROTO_TCP, ACTION_CLOSE)`) only when
the TCP_CLOSE bit is loaded, the socket protocol is TCP and `DPORT` is
non-zero; a UDP close event only when the UDP_CLOSE bit is loaded, the
protocol is UDP and `SPORT` is non-zero; when neither condition holds, the
invocation stores no record at all. -/
theorem netlog_c7_close_liveness (wl : String → Nat → Option Addr → Nat → Bool)
    (l : Nat) (p : Option String) (c : Bool) (s : Option Sock) (v : Bool) :
    (∀ sk, close_classify l c s = some (sk, PROTO_TCP, ACTION_CLOSE) →
      l &&& (1 <<< PROBE_TCP_CLOSE) ≠ 0 ∧ sk.protocol = IPPROTO_TCP ∧ sk.dport ≠ 0) ∧
    (∀ sk, close_classify l c s = some (sk, PROTO_UDP, ACTION_CLOSE) →
      l &&& (1 <<< PROBE_UDP_CLOSE) ≠ 0 ∧ sk.protocol = IPPROTO_UDP ∧ sk.sport ≠ 0) ∧
    (∀ sk, s = some ⟨some sk⟩ →
      ¬(l &&& (1 <<< PROBE_TCP_CLOSE) ≠ 0 ∧ sk.protocol = IPPROTO_TCP ∧ sk.dport ≠ 0) →
      ¬(l &&& (1 <<< PROBE_UDP_CLOSE) ≠ 0 ∧ sk.protocol = IPPROTO_UDP ∧ sk.sport ≠ 0) →
      pre_sys_close wl l p c s v = []) := by
  refine ⟨?_, ?_, ?_⟩
  · intro sk h
    rcases s with _ | ⟨sk?⟩
    · simp [close_classify] at h
    rcases sk? with _ | sk'
    · simp [close_classify] at h
    simp only [close_classify] at h
    by_cases hc : ¬c = true
    · rw [if_pos hc] at h
      exact Option.noConfusion h
    rw [if_neg hc] at h
    by_cases hf : sk'.family ≠ AF_INET ∧ sk'.family ≠ AF_INET6
    · rw [if_pos hf] at h
      exact Option.noConfusion h
    rw [if_neg hf] at h
    by_cases ht : l &&& (1 <<< PROBE_TCP_CLOSE) ≠ 0 ∧ sk'.protocol = IPPROTO_TCP ∧
        sk'.dport ≠ 0
    · rw [if_pos ht] at h
      injection h with h1
      injection h1 with h2 h3
      rw [← h2]
      exact ht
    rw [if_neg ht] at h
    by_cases hu : l &&& (1 <<< PROBE_UDP_CLOSE) ≠ 0 ∧ sk'.protocol = IPPROTO_UDP ∧
        sk'.sport ≠ 0
    · rw [if_pos hu] at h
      injection h with h1
      injection h1 with h2 h3
      injection h3 with h4 h5
      exact absurd h4 (by decide)
    · rw [if_neg hu] at h
      exact Option.noConfusion h
  · intro sk h
    rcases s with _ | ⟨sk?⟩
    · simp [close_classify] at h
    rcases sk? with _ | sk'
    · simp [close_classify] at h
    simp only [close_classify] at h
    by_cases hc : ¬c = true
    · rw [if_pos hc] at h
      exact Option.noConfusion h
    rw [if_neg hc] at h
    by_cases hf : sk'.family ≠ AF_INET ∧ sk'.family ≠ AF_INET6
    · rw [if_pos hf] at h
      exact Option.noConfusion h
    rw [if_neg hf] at h
    by_cases ht : l &&& (1 <<< PROBE_TCP_CLOSE) ≠ 0 ∧ sk'.protocol = IPPROTO_TCP ∧
        sk'.dport ≠ 0
    · rw [if_pos ht] at h
      injection h with h1
      injection h1 with h2 h3
      injection h3 with h4 h5
      exact absurd h4 (by decide)
    rw [if_neg ht] at h
    by_cases hu : l &&& (1 <<< PROBE_UDP_CLOSE) ≠ 0 ∧ sk'.protocol = IPPROTO_UDP ∧
        sk'.sport ≠ 0
    · rw [if_pos hu] at h
      injection h with h1
      injection h1 with h2 h3
      rw [← h2]
      exact hu
    · rw [if_neg hu] at h
      exact Option.noConfusion h
  · rintro sk rfl hn1 hn2
    rw [pre_sys_close_eq_classify]
    simp only [close_classify]
    by_cases hc : ¬c = true
    · rw [if_pos hc]
    · rw [if_neg hc]
      by_cases hf : sk.family ≠ AF_INET ∧ sk.family ≠ AF_INET6
      · rw [if_pos hf]
      · rw [if_neg hf, if_neg hn1, if_neg hn2]

/-- C7 witness: with the mask empty no close record is stored, via the
"otherwise no event" part of the liveness theorem. -/
theorem netlog_c7_close_liveness_witness :
    pre_sys_close (fun _ _ _ _ => false) 0 (some "/bin/a") true
      (some ⟨some ⟨2, 6, 1, 1, 0, 0, 0, 0, 0⟩⟩) true = [] :=
  (netlog_c7_close_liveness (fun _ _ _ _ => false) 0 (some "/bin/a") true
      (some ⟨some ⟨2, 6, 1, 1, 0, 0, 0, 0, 0⟩⟩) true).2.2
    ⟨2, 6, 1, 1, 0, 0, 0, 0, 0⟩ rfl (by decide) (by decide)

/-- C8: emission condition of the classifier sink call.  One invocation of
`log_if_not_whitelisted` stores exactly one record iff the caller's
executable path resolved to non-null and the whitelist gate does not return
whitelisted for it; an unresolvable path makes the invocation return early
with no record (and no error — the function is `void`), and a whitelisted
verdict suppresses the record. -/
theorem netlog_c8_emission (wl : String → Nat → Option Addr → Nat → Bool)
    (path? : Option String) (sk : SockInner) (pr ac : Nat) (v : Bool) :
    ((log_if_not_whitelisted wl path? sk pr ac v).length = 1 ↔
      ∃ p, path? = some p ∧
        wl p sk.family (addrs_of_sk v sk).1 (ntohs sk.dport) = false) ∧
    (path? = none → log_if_not_whitelisted wl path? sk pr ac v = []) ∧
    (∀ p, path? = some p →
      wl p sk.family (addrs_of_sk v sk).1 (ntohs sk.dport) = true →
      log_if_not_whitelisted wl path? sk pr ac v = []) := by
  rcases path? with _ | path
  · refine ⟨?_, fun _ => rfl, ?_⟩
    · constructor
      · intro h
        simp [log_if_not_whitelisted] at h
      · rintro ⟨p, hp, -⟩
        exact Option.noConfusion hp
    · intro p hp
      exact Option.noConfusion hp
  · refine ⟨?_, ?_, ?_⟩
    · constructor
      · intro hlen
        refine ⟨path, rfl, ?_⟩
        rcases hw : wl path sk.family (addrs_of_sk v sk).1 (ntohs sk.dport) with _ | _
        · rfl
        · simp only [log_if_not_whitelisted] at hlen
          rw [hw] at hlen
          simp at hlen
      · rintro ⟨q, hq, hwq⟩
        obtain rfl : path = q := Option.some_inj.1 hq
        simp [log_if_not_whitelisted, hwq]
    · intro h
      exact Option.noConfusion h
    · intro p hp hw
      obtain rfl : path = p := Option.some_inj.1 hp
      simp [log_if_not_whitelisted, hw]

/-- C8 witness: resolvable path and a non-whitelisting gate store exactly one
record. -/
theorem netlog_c8_emission_witness :
    (log_if_not_whitelisted (fun _ _ _ _ => false) (some "/bin/a")
        ⟨2, 6, 1, 1, 0, 0, 0, 0, 0⟩ 0 2 true).length = 1 :=
  (netlog_c8_emission (fun _ _ _ _ => false) (some "/bin/a")
      ⟨2, 6, 1, 1, 0, 0, 0, 0, 0⟩ 0 2 true).1.2 ⟨"/bin/a", rfl, rfl⟩

/-- C9: unrecognized address families.  When the socket family is neither
`AF_INET` nor `AF_INET6`, both address pointers become null, and the event is
still forwarded: the whitelist gate is consulted with a null destination
address, and (unless it suppresses) a record with null source and destination
addresses is stored. -/
theorem netlog_c9_unknown_family (wl : String → Nat → Option Addr → Nat → Bool)
    (sk : SockInner) (pr ac : Nat) (v : Bool) (p : String)
    (h1 : sk.family ≠ AF_INET) (h2 : sk.family ≠ AF_INET6) :
    addrs_of_sk v sk = (none, none) ∧
    log_if_not_whitelisted wl (some p) sk pr ac v =
      (if wl p sk.family none (ntohs sk.dport) then []
       else [⟨p, ac, pr, sk.family, none, ntohs sk.sport, none, ntohs sk.dport⟩]) := by
  have ha : addrs_of_sk v sk = (none, none) := by
    rw [addrs_of_sk, if_neg h1, if_neg h2]
  refine ⟨ha, ?_⟩
  simp only [log_if_not_whitelisted, ha]

/-- C9 witness: family 3 (neither `AF_INET = 2` nor `AF_INET6 = 10`):
addresses are null and the null-address record is still stored through a
non-suppressing gate. -/
theorem netlog_c9_unknown_family_witness :
    addrs_of_sk true ⟨3, 6, 1, 1, 0, 0, 0, 0, 0⟩ = (none, none) ∧
    log_if_not_whitelisted (fun _ _ _ _ => false) (some "/bin/a")
        ⟨3, 6, 1, 1, 0, 0, 0, 0, 0⟩ 0 2 true =
      (if (fun (_ : String) (_ : Nat) (_ : Option Addr) (_ : Nat) => false) "/bin/a"
          (3 : Nat) none (ntohs 1) then []
       else [⟨"/bin/a", 2, 0, 3, none, ntohs 1, none, ntohs 1⟩]) :=
  netlog_c9_unknown_family (fun _ _ _ _ => false) ⟨3, 6, 1, 1, 0, 0, 0, 0, 0⟩ 0 2 true
    "/bin/a" (by decide) (by decide)

/-! ## C4: partial-success semantics of `plant_probes`

Statement-side helpers: the processing order of `plant_probes` coincides with
the bit order 0..5; `loadedBefore m l k` is the value `loaded_probes` has
when the block for kind `k` starts, provided no earlier block failed;
`failsAt` says the block for kind `k` is requested, actually attempts its
plant (for the close pair: the sibling is not already loaded), and the
primitive reports failure (`err < 0`, except the `PROBE_UDP_CONNECT` block
which tests `if (err)`). -/

/-- The physical probe planted by the block of each probe kind. -/
def physOfKind : Nat → Phys
  | 0 => .streamConnect
  | 1 => .acceptProbe
  | 2 => .closeJprobe
  | 3 => .dgramConnect
  | 4 => .bindProbe
  | _ => .closeJprobe

/-- The value `plant_probes` returns when the block of kind `k` fails:
the negated family tag (connect / accept / close / bind). -/
def famErr : Nat → Int
  | 0 => -CONNECT_PROBE_FAILED
  | 1 => -ACCEPT_PROBE_FAILED
  | 2 => -CLOSE_PROBE_FAILED
  | 3 => -CONNECT_PROBE_FAILED
  | 4 => -BIND_PROBE_FAILED
  | _ => -CLOSE_PROBE_FAILED

/-- `loaded_probes` on entry to block `k` of `plant_probes ok m l`, assuming
no earlier block returned: the entry mask plus all requested earlier bits. -/
def loadedBefore (m l k : Nat) : Nat := l ||| (m &&& (2 ^ k - 1))

/-- Whether block `k` actually calls the plant primitive (close blocks skip
the call when the sibling close bit is already loaded). -/
def attemptCond (m l k : Nat) : Bool :=
  if k = PROBE_TCP_CLOSE then
    decide (loadedBefore m l k &&& (1 <<< PROBE_UDP_CLOSE) = 0)
  else if k = PROBE_UDP_CLOSE then
    decide (loadedBefore m l k &&& (1 <<< PROBE_TCP_CLOSE) = 0)
  else true

/-- Whether the primitive's return value makes block `k` fail. -/
def failSign (ok : Phys → Int) (k : Nat) : Bool :=
  if k = PROBE_UDP_CONNECT then decide (ok .dgramConnect ≠ 0)
  else decide (ok (physOfKind k) < 0)

/-- Block `k` of `plant_probes ok m l` fails (given no earlier block did). -/
def failsAt (ok : Phys → Int) (m l k : Nat) : Bool :=
  decide (m &&& (1 <<< k) ≠ 0) && attemptCond m l k && failSign ok k

/-- Kind `k` is the first whose block fails. -/
def firstFailAt (ok : Phys → Int) (m l k : Nat) : Bool :=
  failsAt ok m l k && ((List.range k).all fun j => !failsAt ok m l j)

theorem loadedBefore_zero (m l : Nat) : loadedBefore m l 0 = l := by
  simp [loadedBefore]

theorem loadedBefore_succ (m l k : Nat) :
    loadedBefore m l (k + 1) = loadedBefore m l k ||| (m &&& (1 <<< k)) := by
  apply Nat.eq_of_testBit_eq
  intro i
  simp only [loadedBefore, Nat.testBit_or, Nat.testBit_and, Nat.one_shiftLeft,
    Nat.testBit_two_pow, Nat.testBit_two_pow_sub_one]
  by_cases h1 : i < k
  · have h2 : i < k + 1 := by omega
    have h3 : (k = i) = False := by
      simp only [eq_iff_iff, iff_false]
      omega
    simp [h1, h2, h3]
  · by_cases h2 : i = k
    · subst h2
      simp [h1, (by omega : i < i + 1)]
    · have h3 : ¬ i < k + 1 := by omega
      have h4 : (k = i) = False := by
        simp only [eq_iff_iff, iff_false]
        omega
      simp [h1, h3, h4]

theorem loadedBefore_testBit (m l k i : Nat) :
    (loadedBefore m l k).testBit i =
      (l.testBit i || (m.testBit i && decide (i < k))) := by
  simp only [loadedBefore, Nat.testBit_or, Nat.testBit_and, Nat.testBit_two_pow_sub_one,
    Bool.and_comm]

theorem loadedBefore_s0 (m l : Nat) :
    loadedBefore m l 1 = loadedBefore m l 0 ||| (m &&& (1 <<< PROBE_TCP_CONNECT)) := by
  simpa [PROBE_TCP_CONNECT] using loadedBefore_succ m l 0

theorem loadedBefore_s1 (m l : Nat) :
    loadedBefore m l 2 = loadedBefore m l 1 ||| (m &&& (1 <<< PROBE_TCP_ACCEPT)) := by
  simpa [PROBE_TCP_ACCEPT] using loadedBefore_succ m l 1

theorem loadedBefore_s2 (m l : Nat) :
    loadedBefore m l 3 = loadedBefore m l 2 ||| (m &&& (1 <<< PROBE_TCP_CLOSE)) := by
  simpa [PROBE_TCP_CLOSE] using loadedBefore_succ m l 2

theorem loadedBefore_s3 (m l : Nat) :
    loadedBefore m l 4 = loadedBefore m l 3 ||| (m &&& (1 <<< PROBE_UDP_CONNECT)) := by
  simpa [PROBE_UDP_CONNECT] using loadedBefore_succ m l 3

theorem loadedBefore_s4 (m l : Nat) :
    loadedBefore m l 5 = loadedBefore m l 4 ||| (m &&& (1 <<< PROBE_UDP_BIND)) := by
  simpa [PROBE_UDP_BIND] using loadedBefore_succ m l 4

theorem plant_fail_at_0 (ok : Phys → Int) (m l : Nat)
    (hq : m &&& (1 <<< PROBE_TCP_CONNECT) ≠ 0) (hs : ok Phys.streamConnect < 0) :
    (plant_probes ok m l).err = -CONNECT_PROBE_FAILED ∧
    (plant_probes ok m l).loaded = loadedBefore m l 0 := by
  have h0 := stepKret_fail ok .streamConnect CONNECT_PROBE_FAILED PROBE_TCP_CONNECT false m
    ⟨0, l, []⟩ hq (by exact hs)
  simp only [plant_probes]
  rw [h0]
  simp only [chainStep]
  exact ⟨by trivial, by rw [loadedBefore_zero]⟩

theorem plant_fail_at_1 (ok : Phys → Int) (m l : Nat)
    (h0 : m &&& (1 <<< PROBE_TCP_CONNECT) ≠ 0 → ¬ ok Phys.streamConnect < 0)
    (hq : m &&& (1 <<< PROBE_TCP_ACCEPT) ≠ 0) (hs : ok Phys.acceptProbe < 0) :
    (plant_probes ok m l).err = -ACCEPT_PROBE_FAILED ∧
    (plant_probes ok m l).loaded = loadedBefore m l 1 := by
  have hA : l ||| (m &&& (1 <<< PROBE_TCP_CONNECT)) = loadedBefore m l 1 := by
    rw [loadedBefore_s0, loadedBefore_zero]
  obtain ⟨e1, v1, h1⟩ := stepKret_noFail ok .streamConnect CONNECT_PROBE_FAILED
    PROBE_TCP_CONNECT false m ⟨0, l, []⟩ (fun ha hb => h0 ha hb)
  rw [hA] at h1
  have hf := stepKret_fail ok .acceptProbe ACCEPT_PROBE_FAILED PROBE_TCP_ACCEPT false m
    ⟨e1, loadedBefore m l 1, v1⟩ hq (by exact hs)
  simp only [plant_probes]
  rw [h1]
  simp only [chainStep]
  rw [hf]
  simp only [chainStep]
  exact ⟨by trivial, by trivial⟩

theorem plant_fail_at_2 (ok : Phys → Int) (m l : Nat)
    (h0 : m &&& (1 <<< PROBE_TCP_CONNECT) ≠ 0 → ¬ ok Phys.streamConnect < 0)
    (h1 : m &&& (1 <<< PROBE_TCP_ACCEPT) ≠ 0 → ¬ ok Phys.acceptProbe < 0)
    (hq : m &&& (1 <<< PROBE_TCP_CLOSE) ≠ 0)
    (hg : loadedBefore m l 2 &&& (1 <<< PROBE_UDP_CLOSE) = 0)
    (hs : ok Phys.closeJprobe < 0) :
    (plant_probes ok m l).err = -CLOSE_PROBE_FAILED ∧
    (plant_probes ok m l).loaded = loadedBefore m l 2 := by
  have hA : l ||| (m &&& (1 <<< PROBE_TCP_CONNECT)) = loadedBefore m l 1 := by
    rw [loadedBefore_s0, loadedBefore_zero]
  obtain ⟨e1, v1, hs1⟩ := stepKret_noFail ok .streamConnect CONNECT_PROBE_FAILED
    PROBE_TCP_CONNECT false m ⟨0, l, []⟩ (fun ha hb => h0 ha hb)
  rw [hA] at hs1
  obtain ⟨e2, v2, hs2⟩ := stepKret_noFail ok .acceptProbe ACCEPT_PROBE_FAILED
    PROBE_TCP_ACCEPT false m ⟨e1, loadedBefore m l 1, v1⟩ (fun ha hb => h1 ha hb)
  rw [show loadedBefore m l 1 ||| (m &&& (1 <<< PROBE_TCP_ACCEPT)) = loadedBefore m l 2 from
    (loadedBefore_s1 m l).symm] at hs2
  have hf := step_tcp_close_fail ok m ⟨e2, loadedBefore m l 2, v2⟩ hq hg hs
  simp only [plant_probes]
  rw [hs1]
  simp only [chainStep]
  rw [hs2]
  simp only [chainStep]
  rw [hf]
  simp only [chainStep]
  exact ⟨by trivial, by trivial⟩

theorem plant_fail_at_3 (ok : Phys → Int) (m l : Nat)
    (h0 : m &&& (1 <<< PROBE_TCP_CONNECT) ≠ 0 → ¬ ok Phys.streamConnect < 0)
    (h1 : m &&& (1 <<< PROBE_TCP_ACCEPT) ≠ 0 → ¬ ok Phys.acceptProbe < 0)
    (h2 : m &&& (1 <<< PROBE_TCP_CLOSE) ≠ 0 →
      loadedBefore m l 2 &&& (1 <<< PROBE_UDP_CLOSE) = 0 → ¬ ok Phys.closeJprobe < 0)
    (hq : m &&& (1 <<< PROBE_UDP_CONNECT) ≠ 0) (hs : ok Phys.dgramConnect ≠ 0) :
    (plant_probes ok m l).err = -CONNECT_PROBE_FAILED ∧
    (plant_probes ok m l).loaded = loadedBefore m l 3 := by
  have hA : l ||| (m &&& (1 <<< PROBE_TCP_CONNECT)) = loadedBefore m l 1 := by
    rw [loadedBefore_s0, loadedBefore_zero]
  obtain ⟨e1, v1, hs1⟩ := stepKret_noFail ok .streamConnect CONNECT_PROBE_FAILED
    PROBE_TCP_CONNECT false m ⟨0, l, []⟩ (fun ha hb => h0 ha hb)
  rw [hA] at hs1
  obtain ⟨e2, v2, hs2⟩ := stepKret_noFail ok .acceptProbe ACCEPT_PROBE_FAILED
    PROBE_TCP_ACCEPT false m ⟨e1, loadedBefore m l 1, v1⟩ (fun ha hb => h1 ha hb)
  rw [show loadedBefore m l 1 ||| (m &&& (1 <<< PROBE_TCP_ACCEPT)) = loadedBefore m l 2 from
    (loadedBefore_s1 m l).symm] at hs2
  obtain ⟨e3, v3, hs3⟩ := step_tcp_close_noFail ok m ⟨e2, loadedBefore m l 2, v2⟩
    (fun ha hg hb => h2 ha hg hb)
  rw [show loadedBefore m l 2 ||| (m &&& (1 <<< PROBE_TCP_CLOSE)) = loadedBefore m l 3 from
    (loadedBefore_s2 m l).symm] at hs3
  have hf := stepKret_fail ok .dgramConnect CONNECT_PROBE_FAILED PROBE_UDP_CONNECT true m
    ⟨e3, loadedBefore m l 3, v3⟩ hq (by exact hs)
  simp only [plant_probes]
  rw [hs1]
  simp only [chainStep]
  rw [hs2]
  simp only [chainStep]
  rw [hs3]
  simp only [chainStep]
  rw [hf]
  simp only [chainStep]
  exact ⟨by trivial, by trivial⟩

theorem plant_fail_at_4 (ok : Phys → Int) (m l : Nat)
    (h0 : m &&& (1 <<< PROBE_TCP_CONNECT) ≠ 0 → ¬ ok Phys.streamConnect < 0)
    (h1 : m &&& (1 <<< PROBE_TCP_ACCEPT) ≠ 0 → ¬ ok Phys.acceptProbe < 0)
    (h2 : m &&& (1 <<< PROBE_TCP_CLOSE) ≠ 0 →
      loadedBefore m l 2 &&& (1 <<< PROBE_UDP_CLOSE) = 0 → ¬ ok Phys.closeJprobe < 0)
    (h3 : m &&& (1 <<< PROBE_UDP_CONNECT) ≠ 0 → ¬ ok Phys.dgramConnect ≠ 0)
    (hq : m &&& (1 <<< PROBE_UDP_BIND) ≠ 0) (hs : ok Phys.bindProbe < 0) :
    (plant_probes ok m l).err = -BIND_PROBE_FAILED ∧
    (plant_probes ok m l).loaded = loadedBefore m l 4 := by
  have hA : l ||| (m &&& (1 <<< PROBE_TCP_CONNECT)) = loadedBefore m l 1 := by
    rw [loadedBefore_s0, loadedBefore_zero]
  obtain ⟨e1, v1, hs1⟩ := stepKret_noFail ok .streamConnect CONNECT_PROBE_FAILED
    PROBE_TCP_CONNECT false m ⟨0, l, []⟩ (fun ha hb => h0 ha hb)
  rw [hA] at hs1
  obtain ⟨e2, v2, hs2⟩ := stepKret_noFail ok .acceptProbe ACCEPT_PROBE_FAILED
    PROBE_TCP_ACCEPT false m ⟨e1, loadedBefore m l 1, v1⟩ (fun ha hb => h1 ha hb)
  rw [show loadedBefore m l 1 ||| (m &&& (1 <<< PROBE_TCP_ACCEPT)) = loadedBefore m l 2 from
    (loadedBefore_s1 m l).symm] at hs2
  obtain ⟨e3, v3, hs3⟩ := step_tcp_close_noFail ok m ⟨e2, loadedBefore m l 2, v2⟩
    (fun ha hg hb => h2 ha hg hb)
  rw [show loadedBefore m l 2 ||| (m &&& (1 <<< PROBE_TCP_CLOSE)) = loadedBefore m l 3 from
    (loadedBefore_s2 m l).symm] at hs3
  obtain ⟨e4, v4, hs4⟩ := stepKret_noFail ok .dgramConnect CONNECT_PROBE_FAILED
    PROBE_UDP_CONNECT true m ⟨e3, loadedBefore m l 3, v3⟩ (fun ha hb => h3 ha hb)
  rw [show loadedBefore m l 3 ||| (m &&& (1 <<< PROBE_UDP_CONNECT)) = loadedBefore m l 4 from
    (loadedBefore_s3 m l).symm] at hs4
  have hf := stepKret_fail ok .bindProbe BIND_PROBE_FAILED PROBE_UDP_BIND false m
    ⟨e4, loadedBefore m l 4, v4⟩ hq (by exact hs)
  simp only [plant_probes]
  rw [hs1]
  simp only [chainStep]
  rw [hs2]
  simp only [chainStep]
  rw [hs3]
  simp only [chainStep]
  rw [hs4]
  simp only [chainStep]
  rw [hf]
  simp only [chainStep]
  exact ⟨by trivial, by trivial⟩

theorem plant_fail_at_5 (ok : Phys → Int) (m l : Nat)
    (h0 : m &&& (1 <<< PROBE_TCP_CONNECT) ≠ 0 → ¬ ok Phys.streamConnect < 0)
    (h1 : m &&& (1 <<< PROBE_TCP_ACCEPT) ≠ 0 → ¬ ok Phys.acceptProbe < 0)
    (h2 : m &&& (1 <<< PROBE_TCP_CLOSE) ≠ 0 →
      loadedBefore m l 2 &&& (1 <<< PROBE_UDP_CLOSE) = 0 → ¬ ok Phys.closeJprobe < 0)
    (h3 : m &&& (1 <<< PROBE_UDP_CONNECT) ≠ 0 → ¬ ok Phys.dgramConnect ≠ 0)
    (h4 : m &&& (1 <<< PROBE_UDP_BIND) ≠ 0 → ¬ ok Phys.bindProbe < 0)
    (hq : m &&& (1 <<< PROBE_UDP_CLOSE) ≠ 0)
    (hg : loadedBefore m l 5 &&& (1 <<< PROBE_TCP_CLOSE) = 0)
    (hs : ok Phys.closeJprobe < 0) :
    (plant_probes ok m l).err = -CLOSE_PROBE_FAILED ∧
    (plant_probes ok m l).loaded = loadedBefore m l 5 := by
  have hA : l ||| (m &&& (1 <<< PROBE_TCP_CONNECT)) = loadedBefore m l 1 := by
    rw [loadedBefore_s0, loadedBefore_zero]
  obtain ⟨e1, v1, hs1⟩ := stepKret_noFail ok .streamConnect CONNECT_PROBE_FAILED
    PROBE_TCP_CONNECT false m ⟨0, l, []⟩ (fun ha hb => h0 ha hb)
  rw [hA] at hs1
  obtain ⟨e2, v2, hs2⟩ := stepKret_noFail ok .acceptProbe ACCEPT_PROBE_FAILED
    PROBE_TCP_ACCEPT false m ⟨e1, loadedBefore m l 1, v1⟩ (fun ha hb => h1 ha hb)
  rw [show loadedBefore m l 1 ||| (m &&& (1 <<< PROBE_TCP_ACCEPT)) = loadedBefore m l 2 from
    (loadedBefore_s1 m l).symm] at hs2
  obtain ⟨e3, v3, hs3⟩ := step_tcp_close_noFail ok m ⟨e2, loadedBefore m l 2, v2⟩
    (fun ha hg2 hb => h2 ha hg2 hb)
  rw [show loadedBefore m l 2 ||| (m &&& (1 <<< PROBE_TCP_CLOSE)) = loadedBefore m l 3 from
    (loadedBefore_s2 m l).symm] at hs3
  obtain ⟨e4, v4, hs4⟩ := stepKret_noFail ok .dgramConnect CONNECT_PROBE_FAILED
    PROBE_UDP_CONNECT true m ⟨e3, loadedBefore m l 3, v3⟩ (fun ha hb => h3 ha hb)
  rw [show loadedBefore m l 3 ||| (m &&& (1 <<< PROBE_UDP_CONNECT)) = loadedBefore m l 4 from
    (loadedBefore_s3 m l).symm] at hs4
  obtain ⟨e5, v5, hs5⟩ := stepKret_noFail ok .bindProbe BIND_PROBE_FAILED
    PROBE_UDP_BIND false m ⟨e4, loadedBefore m l 4, v4⟩ (fun ha hb => h4 ha hb)
  rw [show loadedBefore m l 4 ||| (m &&& (1 <<< PROBE_UDP_BIND)) = loadedBefore m l 5 from
    (loadedBefore_s4 m l).symm] at hs5
  have hf := step_udp_close_fail ok m ⟨e5, loadedBefore m l 5, v5⟩ hq hg hs
  simp only [plant_probes]
  rw [hs1]
  simp only [chainStep]
  rw [hs2]
  simp only [chainStep]
  rw [hs3]
  simp only [chainStep]
  rw [hs4]
  simp only [chainStep]
  rw [hs5]
  simp only [chainStep]
  rw [hf]
  simp only [chainStep]
  exact ⟨by trivial, by trivial⟩

theorem not_fails_parts (ok : Phys → Int) (m l j : Nat) (hj : failsAt ok m l j = false) :
    ¬ (m &&& (1 <<< j) ≠ 0 ∧ attemptCond m l j = true ∧ failSign ok j = true) := by
  rintro ⟨ha, hb, hc⟩
  rw [failsAt, hb, hc] at hj
  simp [ha] at hj

theorem c4_post (ok : Phys → Int) (m l k : Nat) (hd : m &&& l = 0)
    (hq : m &&& (1 <<< k) ≠ 0)
    (hres : (plant_probes ok m l).loaded = loadedBefore m l k) :
    (plant_probes ok m l).loaded.testBit k = false ∧
    ∀ j, j < k → m.testBit j = true → (plant_probes ok m l).loaded.testBit j = true := by
  have hmk : m.testBit k = true := (land_two_pow_ne_zero_iff m k).1 hq
  have hlk : l.testBit k = false := by
    have hno := (land_eq_zero_iff_testBit m l).1 hd k
    rcases hb : l.testBit k with _ | _
    · rfl
    · exact absurd ⟨hmk, hb⟩ hno
  constructor
  · rw [hres, loadedBefore_testBit]
    simp [hlk]
  · intro j hj hmj
    rw [hres, loadedBefore_testBit]
    simp [hmj, hj]

/-- C4: install partial-success and error tagging.  For a requested mask
disjoint from the currently loaded one (the invariant at every `plant_probes`
call site: callers install only bits not yet loaded), if the first failing
block is the one for probe kind `k` (`firstFailAt`), then `plant_probes`
returns the negated error tag of `k`'s probe family (connect / accept /
close / bind), leaves kind `k`'s bit clear in `loaded_probes`, and leaves
every requested bit processed earlier in the same call set — no rollback. -/
theorem netlog_c4_install_partial (ok : Phys → Int) (m l k : Nat)
    (hd : m &&& l = 0) (hk : k < 6) (hf : firstFailAt ok m l k = true) :
    (plant_probes ok m l).err = famErr k ∧
    (plant_probes ok m l).loaded.testBit k = false ∧
    ∀ j, j < k → m.testBit j = true → (plant_probes ok m l).loaded.testBit j = true := by
  have hfk : failsAt ok m l k = true := (Bool.and_eq_true_iff.1 hf).1
  have hpre : ∀ j, j < k → failsAt ok m l j = false := by
    intro j hj
    have hall := (Bool.and_eq_true_iff.1 hf).2
    rw [List.all_eq_true] at hall
    have := hall j (List.mem_range.2 hj)
    simpa using this
  have hq : m &&& (1 <<< k) ≠ 0 := by
    have := (Bool.and_eq_true_iff.1 (Bool.and_eq_true_iff.1 hfk).1).1
    exact of_decide_eq_true this
  have hat : attemptCond m l k = true := (Bool.and_eq_true_iff.1 (Bool.and_eq_true_iff.1 hfk).1).2
  have hsg : failSign ok k = true := (Bool.and_eq_true_iff.1 hfk).2
  have mk0 : 0 < k → (m &&& (1 <<< PROBE_TCP_CONNECT) ≠ 0 → ¬ ok Phys.streamConnect < 0) := by
    intro hlt ha hb
    exact not_fails_parts ok m l 0 (hpre 0 hlt)
      ⟨by exact ha, by simp [attemptCond, PROBE_TCP_CLOSE, PROBE_UDP_CLOSE],
       by simp [failSign, physOfKind, PROBE_UDP_CONNECT, hb]⟩
  have mk1 : 1 < k → (m &&& (1 <<< PROBE_TCP_ACCEPT) ≠ 0 → ¬ ok Phys.acceptProbe < 0) := by
    intro hlt ha hb
    exact not_fails_parts ok m l 1 (hpre 1 hlt)
      ⟨by exact ha, by simp [attemptCond, PROBE_TCP_CLOSE, PROBE_UDP_CLOSE],
       by simp [failSign, physOfKind, PROBE_UDP_CONNECT, hb]⟩
  have mk2 : 2 < k → (m &&& (1 <<< PROBE_TCP_CLOSE) ≠ 0 →
      loadedBefore m l 2 &&& (1 <<< PROBE_UDP_CLOSE) = 0 → ¬ ok Phys.closeJprobe < 0) := by
    intro hlt ha hg hb
    exact not_fails_parts ok m l 2 (hpre 2 hlt)
      ⟨by exact ha, by simp [attemptCond, PROBE_TCP_CLOSE, hg],
       by simp [failSign, physOfKind, PROBE_UDP_CONNECT, hb]⟩
  have mk3 : 3 < k → (m &&& (1 <<< PROBE_UDP_CONNECT) ≠ 0 → ¬ ok Phys.dgramConnect ≠ 0) := by
    intro hlt ha hb
    exact not_fails_parts ok m l 3 (hpre 3 hlt)
      ⟨by exact ha, by simp [attemptCond, PROBE_TCP_CLOSE, PROBE_UDP_CLOSE],
       by simp [failSign, PROBE_UDP_CONNECT, hb]⟩
  have mk4 : 4 < k → (m &&& (1 <<< PROBE_UDP_BIND) ≠ 0 → ¬ ok Phys.bindProbe < 0) := by
    intro hlt ha hb
    exact not_fails_parts ok m l 4 (hpre 4 hlt)
      ⟨by exact ha, by simp [attemptCond, PROBE_TCP_CLOSE, PROBE_UDP_CLOSE],
       by simp [failSign, physOfKind, PROBE_UDP_CONNECT, hb]⟩
  interval_cases k
  · have hs0 : ok Phys.streamConnect < 0 := by
      simpa [failSign, physOfKind, PROBE_UDP_CONNECT] using hsg
    obtain ⟨he, hl⟩ := plant_fail_at_0 ok m l (by exact hq) hs0
    exact ⟨by rw [he]; rfl, c4_post ok m l 0 hd hq hl⟩
  · have hs1 : ok Phys.acceptProbe < 0 := by
      simpa [failSign, physOfKind, PROBE_UDP_CONNECT] using hsg
    obtain ⟨he, hl⟩ := plant_fail_at_1 ok m l (mk0 (by omega)) (by exact hq) hs1
    exact ⟨by rw [he]; rfl, c4_post ok m l 1 hd hq hl⟩
  · have hg2 : loadedBefore m l 2 &&& (1 <<< PROBE_UDP_CLOSE) = 0 := by
      simpa [attemptCond, PROBE_TCP_CLOSE] using hat
    have hs2 : ok Phys.closeJprobe < 0 := by
      simpa [failSign, physOfKind, PROBE_UDP_CONNECT] using hsg
    obtain ⟨he, hl⟩ := plant_fail_at_2 ok m l (mk0 (by omega)) (mk1 (by omega))
      (by exact hq) hg2 hs2
    exact ⟨by rw [he]; rfl, c4_post ok m l 2 hd hq hl⟩
  · have hs3 : ok Phys.dgramConnect ≠ 0 := by
      simpa [failSign, PROBE_UDP_CONNECT] using hsg
    obtain ⟨he, hl⟩ := plant_fail_at_3 ok m l (mk0 (by omega)) (mk1 (by omega))
      (mk2 (by omega)) (by exact hq) hs3
    exact ⟨by rw [he]; rfl, c4_post ok m l 3 hd hq hl⟩
  · have hs4 : ok Phys.bindProbe < 0 := by
      simpa [failSign, physOfKind, PROBE_UDP_CONNECT] using hsg
    obtain ⟨he, hl⟩ := plant_fail_at_4 ok m l (mk0 (by omega)) (mk1 (by omega))
      (mk2 (by omega)) (mk3 (by omega)) (by exact hq) hs4
    exact ⟨by rw [he]; rfl, c4_post ok m l 4 hd hq hl⟩
  · have hg5 : loadedBefore m l 5 &&& (1 <<< PROBE_TCP_CLOSE) = 0 := by
      simpa [attemptCond, PROBE_TCP_CLOSE, PROBE_UDP_CLOSE] using hat
    have hs5 : ok Phys.closeJprobe < 0 := by
      simpa [failSign, physOfKind, PROBE_UDP_CONNECT] using hsg
    obtain ⟨he, hl⟩ := plant_fail_at_5 ok m l (mk0 (by omega)) (mk1 (by omega))
      (mk2 (by omega)) (mk3 (by omega)) (mk4 (by omega)) (by exact hq) (by exact hg5) hs5
    exact ⟨by rw [he]; rfl, c4_post ok m l 5 hd hq hl⟩

/-- C4 witness: request connect+accept (`m = 3`) on an empty registry with an
oracle that fails the accept kretprobe: `plant_probes` returns the accept
family tag (`-ACCEPT_PROBE_FAILED = 2`), the accept bit stays clear, and the
connect bit planted earlier in the same call stays set. -/
theorem netlog_c4_install_partial_witness :
    (plant_probes (fun p => if p = Phys.acceptProbe then -1 else 0) 3 0).err = famErr 1 ∧
    (plant_probes (fun p => if p = Phys.acceptProbe then -1 else 0) 3 0).loaded.testBit 1
      = false ∧
    ∀ j, j < 1 → (3 : Nat).testBit j = true →
      (plant_probes (fun p => if p = Phys.acceptProbe then -1 else 0) 3 0).loaded.testBit j
        = true :=
  netlog_c4_install_partial (fun p => if p = Phys.acceptProbe then -1 else 0) 3 0 1
    (by decide) (by decide) (by decide)

/-! ## C1: the shared close hook across install/uninstall sequences

The physical installed state of `close_jprobe` is owned by the
instrumentation subsystem; it is the fold of the issued calls: a successful
`plant_jprobe` installs it, a failed one leaves it as is, `unplant_jprobe`
removes it.  Install/uninstall of one close kind is a
`one_probe_param_set` call for that probe's `probe_list` mask (value 1 or
0), as the administrative layer performs it. -/

/-- The two close bits of the mask. -/
def closeBits : Nat := (1 <<< PROBE_TCP_CLOSE) ||| (1 <<< PROBE_UDP_CLOSE)

/-- Registry state plus the physical installed state of `close_jprobe`. -/
structure W where
  reg : Reg
  planted : Bool
deriving DecidableEq

/-- Effect of one issued instrumentation call on the physical installed
state of `close_jprobe`. -/
def applyEv (b : Bool) (e : Ev) : Bool :=
  match e with
  | .plantCall .closeJprobe r => if r < 0 then b else true
  | .unplantCall .closeJprobe => false
  | _ => b

/-- Physical installed state of `close_jprobe` after a list of calls. -/
def plantedAfter (b : Bool) (evs : List Ev) : Bool := evs.foldl applyEv b

/-- One administrative toggle of a close probe kind: install (`value = 1`,
with `okJ` the result `plant_jprobe` would return) or uninstall
(`value = 0`) of TCP_CLOSE (`tcp = true`) or UDP_CLOSE (`tcp = false`). -/
inductive COp where
  | inst (tcp : Bool) (okJ : Int)
  | uninst (tcp : Bool)
deriving DecidableEq

/-- The `probe_list` mask of the toggled close kind. -/
def closeMask (tcp : Bool) : Nat :=
  if tcp then 1 <<< PROBE_TCP_CLOSE else 1 <<< PROBE_UDP_CLOSE

/-- The instrumentation calls one toggle issues. -/
def closeStepEvs (w : W) (op : COp) : List Ev :=
  match op with
  | .inst tcp okJ => (one_probe_param_set (fun _ => okJ) 0 (closeMask tcp) 1 w.reg).2.2
  | .uninst tcp => (one_probe_param_set (fun _ => 0) 0 (closeMask tcp) 0 w.reg).2.2

/-- The world after one toggle: the new registry state, and the physical
close-hook state after the issued calls. -/
def closeStep (w : W) (op : COp) : W :=
  match op with
  | .inst tcp okJ =>
    ⟨(one_probe_param_set (fun _ => okJ) 0 (closeMask tcp) 1 w.reg).2.1,
     plantedAfter w.planted (closeStepEvs w op)⟩
  | .uninst tcp =>
    ⟨(one_probe_param_set (fun _ => 0) 0 (closeMask tcp) 0 w.reg).2.1,
     plantedAfter w.planted (closeStepEvs w op)⟩

/-- A toggle is well-behaved when every `plant_jprobe` it issues happens with
both close bits clear (in particular never when the sibling bit is set, so
the already-planted hook is never re-planted), and every `unplant_jprobe` it
issues happens exactly when the last of the two close bits is being cleared. -/
def goodStep (w : W) (op : COp) : Bool :=
  (closeStepEvs w op).all fun e =>
    match e with
    | .plantCall .closeJprobe _ => decide (w.reg.loaded &&& closeBits = 0)
    | .unplantCall .closeJprobe =>
        decide (w.reg.loaded &&& closeBits ≠ 0) &&
        decide ((closeStep w op).reg.loaded &&& closeBits = 0)
    | _ => true

/-- Run a sequence of close-kind toggles. -/
def runClose (w : W) : List COp → W
  | [] => w
  | op :: t => runClose (closeStep w op) t

/-- Every toggle in the sequence is well-behaved. -/
def goodRun (w : W) : List COp → Bool
  | [] => true
  | op :: t => goodStep w op && goodRun (closeStep w op) t

theorem one_probe_param_set_uninit (ok : Phys → Int) (df pm v l : Nat) :
    one_probe_param_set ok df pm v ⟨0, l⟩ = one_probe_core ok pm v 0 l [] 0 := by
  rw [one_probe_param_set]
  simp

theorem pm_not32_guard (l k : Nat) (hk : k < 32) :
    (1 <<< k) &&& NOT32 l ≠ 0 ↔ l.testBit k = false := by
  rw [Nat.and_comm, land_two_pow_ne_zero_iff, testBit_NOT32 l k hk]
  simp

theorem pm_land_guard (l k : Nat) : (1 <<< k) &&& l ≠ 0 ↔ l.testBit k = true := by
  rw [Nat.and_comm, land_two_pow_ne_zero_iff]

theorem land_closeBits_eq_zero (x : Nat) :
    x &&& closeBits = 0 ↔
      x.testBit PROBE_TCP_CLOSE = false ∧ x.testBit PROBE_UDP_CLOSE = false := by
  have hcb : ∀ i, closeBits.testBit i =
      (decide (PROBE_TCP_CLOSE = i) || decide (PROBE_UDP_CLOSE = i)) := by
    intro i
    simp only [closeBits, Nat.one_shiftLeft, Nat.testBit_or, Nat.testBit_two_pow]
  rw [land_eq_zero_iff_testBit]
  constructor
  · intro h
    refine ⟨?_, ?_⟩
    · rcases hb : x.testBit PROBE_TCP_CLOSE with _ | _
      · rfl
      · exact absurd ⟨hb, by rw [hcb]; simp⟩ (h PROBE_TCP_CLOSE)
    · rcases hb : x.testBit PROBE_UDP_CLOSE with _ | _
      · rfl
      · exact absurd ⟨hb, by rw [hcb]; simp⟩ (h PROBE_UDP_CLOSE)
  · rintro ⟨ha, hb⟩ i ⟨hx, hc⟩
    rw [hcb] at hc
    simp only [Bool.or_eq_true, decide_eq_true_eq] at hc
    rcases hc with h2 | h5
    · rw [← h2, ha] at hx
      exact Bool.false_ne_true hx
    · rw [← h5, hb] at hx
      exact Bool.false_ne_true hx

theorem land_closeBits_ne_zero_left (x : Nat) (h : x.testBit PROBE_TCP_CLOSE = true) :
    x &&& closeBits ≠ 0 := by
  intro hz
  rw [land_closeBits_eq_zero] at hz
  rw [hz.1] at h
  exact Bool.false_ne_true h

theorem land_closeBits_ne_zero_right (x : Nat) (h : x.testBit PROBE_UDP_CLOSE = true) :
    x &&& closeBits ≠ 0 := by
  intro hz
  rw [land_closeBits_eq_zero] at hz
  rw [hz.2] at h
  exact Bool.false_ne_true h

theorem plant_close_tcp_skip (ok : Phys → Int) (l : Nat)
    (hg : l.testBit PROBE_UDP_CLOSE = true) :
    plant_probes ok (1 <<< PROBE_TCP_CLOSE) l = ⟨0, l ||| (1 <<< PROBE_TCP_CLOSE), []⟩ := by
  have hg' : ¬ (l &&& (1 <<< PROBE_UDP_CLOSE) = 0) := by
    rw [land_two_pow_eq_zero_iff]
    simp [hg]
  have hg32 : ¬ (l &&& 32 = 0) := hg'
  simp +decide [plant_probes, chainStep, stepKret, step_tcp_close, step_udp_close,
    PROBE_TCP_CONNECT, PROBE_TCP_ACCEPT, PROBE_TCP_CLOSE, PROBE_UDP_CONNECT,
    PROBE_UDP_BIND, PROBE_UDP_CLOSE, hg32]

theorem plant_close_tcp_fail (ok : Phys → Int) (l : Nat)
    (hg : l.testBit PROBE_UDP_CLOSE = false) (he : ok Phys.closeJprobe < 0) :
    plant_probes ok (1 <<< PROBE_TCP_CLOSE) l =
      ⟨-CLOSE_PROBE_FAILED, l, [.plantCall .closeJprobe (ok Phys.closeJprobe)]⟩ := by
  have hg' : l &&& (1 <<< PROBE_UDP_CLOSE) = 0 := (land_two_pow_eq_zero_iff l 5).2 hg
  have hg32 : l &&& 32 = 0 := hg'
  simp +decide [plant_probes, chainStep, stepKret, step_tcp_close, step_udp_close,
    PROBE_TCP_CONNECT, PROBE_TCP_ACCEPT, PROBE_TCP_CLOSE, PROBE_UDP_CONNECT,
    PROBE_UDP_BIND, PROBE_UDP_CLOSE, hg32, he]

theorem plant_close_tcp_fresh (ok : Phys → Int) (l : Nat)
    (hg : l.testBit PROBE_UDP_CLOSE = false) (he : ¬ ok Phys.closeJprobe < 0) :
    plant_probes ok (1 <<< PROBE_TCP_CLOSE) l =
      ⟨ok Phys.closeJprobe, l ||| (1 <<< PROBE_TCP_CLOSE),
       [.plantCall .closeJprobe (ok Phys.closeJprobe)]⟩ := by
  have hg' : l &&& (1 <<< PROBE_UDP_CLOSE) = 0 := (land_two_pow_eq_zero_iff l 5).2 hg
  have hg32 : l &&& 32 = 0 := hg'
  simp +decide [plant_probes, chainStep, stepKret, step_tcp_close, step_udp_close,
    PROBE_TCP_CONNECT, PROBE_TCP_ACCEPT, PROBE_TCP_CLOSE, PROBE_UDP_CONNECT,
    PROBE_UDP_BIND, PROBE_UDP_CLOSE, hg32, he]

theorem plant_close_udp_skip (ok : Phys → Int) (l : Nat)
    (hg : l.testBit PROBE_TCP_CLOSE = true) :
    plant_probes ok (1 <<< PROBE_UDP_CLOSE) l = ⟨0, l ||| (1 <<< PROBE_UDP_CLOSE), []⟩ := by
  have hg' : ¬ (l &&& (1 <<< PROBE_TCP_CLOSE) = 0) := by
    rw [land_two_pow_eq_zero_iff]
    simp [hg]
  have hg4 : ¬ (l &&& 4 = 0) := hg'
  simp +decide [plant_probes, chainStep, stepKret, step_tcp_close, step_udp_close,
    PROBE_TCP_CONNECT, PROBE_TCP_ACCEPT, PROBE_TCP_CLOSE, PROBE_UDP_CONNECT,
    PROBE_UDP_BIND, PROBE_UDP_CLOSE, hg4]

theorem plant_close_udp_fail (ok : Phys → Int) (l : Nat)
    (hg : l.testBit PROBE_TCP_CLOSE = false) (he : ok Phys.closeJprobe < 0) :
    plant_probes ok (1 <<< PROBE_UDP_CLOSE) l =
      ⟨-CLOSE_PROBE_FAILED, l, [.plantCall .closeJprobe (ok Phys.closeJprobe)]⟩ := by
  have hg' : l &&& (1 <<< PROBE_TCP_CLOSE) = 0 := (land_two_pow_eq_zero_iff l 2).2 hg
  have hg4 : l &&& 4 = 0 := hg'
  simp +decide [plant_probes, chainStep, stepKret, step_tcp_close, step_udp_close,
    PROBE_TCP_CONNECT, PROBE_TCP_ACCEPT, PROBE_TCP_CLOSE, PROBE_UDP_CONNECT,
    PROBE_UDP_BIND, PROBE_UDP_CLOSE, hg4, he]

theorem plant_close_udp_fresh (ok : Phys → Int) (l : Nat)
    (hg : l.testBit PROBE_TCP_CLOSE = false) (he : ¬ ok Phys.closeJprobe < 0) :
    plant_probes ok (1 <<< PROBE_UDP_CLOSE) l =
      ⟨ok Phys.closeJprobe, l ||| (1 <<< PROBE_UDP_CLOSE),
       [.plantCall .closeJprobe (ok Phys.closeJprobe)]⟩ := by
  have hg' : l &&& (1 <<< PROBE_TCP_CLOSE) = 0 := (land_two_pow_eq_zero_iff l 2).2 hg
  have hg4 : l &&& 4 = 0 := hg'
  simp +decide [plant_probes, chainStep, stepKret, step_tcp_close, step_udp_close,
    PROBE_TCP_CONNECT, PROBE_TCP_ACCEPT, PROBE_TCP_CLOSE, PROBE_UDP_CONNECT,
    PROBE_UDP_BIND, PROBE_UDP_CLOSE, hg4, he]

theorem unplant_close_tcp_eval (l : Nat) :
    unplant_probes (1 <<< PROBE_TCP_CLOSE) l =
      (l ^^^ (1 <<< PROBE_TCP_CLOSE),
       if (l ^^^ (1 <<< PROBE_TCP_CLOSE)) &&& closeBits = 0 then
         [Ev.unplantCall .closeJprobe] else []) := by
  simp +decide [unplant_probes, closeBits, PROBE_TCP_CONNECT, PROBE_TCP_ACCEPT,
    PROBE_TCP_CLOSE, PROBE_UDP_CONNECT, PROBE_UDP_BIND, PROBE_UDP_CLOSE]

theorem unplant_close_udp_eval (l : Nat) :
    unplant_probes (1 <<< PROBE_UDP_CLOSE) l =
      (l ^^^ (1 <<< PROBE_UDP_CLOSE),
       if (l ^^^ (1 <<< PROBE_UDP_CLOSE)) &&& closeBits = 0 then
         [Ev.unplantCall .closeJprobe] else []) := by
  simp +decide [unplant_probes, closeBits, PROBE_TCP_CONNECT, PROBE_TCP_ACCEPT,
    PROBE_TCP_CLOSE, PROBE_UDP_CONNECT, PROBE_UDP_BIND, PROBE_UDP_CLOSE]

theorem testBit_lor_pow_self (l k : Nat) : (l ||| (1 <<< k)).testBit k = true := by
  simp [Nat.testBit_or, Nat.one_shiftLeft, Nat.testBit_two_pow]

theorem testBit_lor_pow_other (l k i : Nat) (h : i ≠ k) :
    (l ||| (1 <<< k)).testBit i = l.testBit i := by
  simp only [Nat.testBit_or, Nat.one_shiftLeft, Nat.testBit_two_pow]
  have : (k = i) = False := by
    simp only [eq_iff_iff, iff_false]
    omega
  simp [this]

theorem testBit_xor_pow_self (l k : Nat) : (l ^^^ (1 <<< k)).testBit k = !l.testBit k := by
  simp [Nat.testBit_xor, Nat.one_shiftLeft, Nat.testBit_two_pow]

theorem testBit_xor_pow_other (l k i : Nat) (h : i ≠ k) :
    (l ^^^ (1 <<< k)).testBit i = l.testBit i := by
  simp only [Nat.testBit_xor, Nat.one_shiftLeft, Nat.testBit_two_pow]
  have : (k = i) = False := by
    simp only [eq_iff_iff, iff_false]
    omega
  simp [this]

theorem bool_not_true {x : Bool} (h : ¬ x = true) : x = false := by
  rcases hx : x with _ | _
  · rfl
  · exact absurd hx h

theorem closeStep_good (l : Nat) (b : Bool) (op : COp)
    (h2 : l < 2 ^ 32) (h3 : b = true ↔ l &&& closeBits ≠ 0) :
    ((closeStep ⟨⟨0, l⟩, b⟩ op).reg.initialized = 0 ∧
     (closeStep ⟨⟨0, l⟩, b⟩ op).reg.loaded < 2 ^ 32 ∧
     ((closeStep ⟨⟨0, l⟩, b⟩ op).planted = true ↔
       (closeStep ⟨⟨0, l⟩, b⟩ op).reg.loaded &&& closeBits ≠ 0)) ∧
    goodStep ⟨⟨0, l⟩, b⟩ op = true := by
  rcases op with ⟨tcp, okJ⟩ | tcp
  · rcases tcp with _ | _
    · -- install UDP_CLOSE
      by_cases hb5 : l.testBit PROBE_UDP_CLOSE = true
      · have hng : ¬ ((1 <<< PROBE_UDP_CLOSE) &&& NOT32 l ≠ 0) := by
          rw [pm_not32_guard l PROBE_UDP_CLOSE (by norm_num [PROBE_UDP_CLOSE])]
          simp [hb5]
        have hres : one_probe_param_set (fun _ => okJ) 0 (closeMask false) 1 ⟨0, l⟩ =
            (0, ⟨0, l⟩, []) := by
          rw [show closeMask false = 1 <<< PROBE_UDP_CLOSE from rfl,
            one_probe_param_set_uninit, one_probe_core,
            if_pos (by norm_num : (1 : Nat) ≠ 0), if_neg hng]
        simp only [closeStep, closeStepEvs, hres]
        refine ⟨⟨by trivial, h2, ?_⟩, ?_⟩
        · simpa [plantedAfter] using h3
        · simp [goodStep, closeStepEvs, hres]
      · have hb5f := bool_not_true hb5
        have hpg : (1 <<< PROBE_UDP_CLOSE) &&& NOT32 l ≠ 0 :=
          (pm_not32_guard l PROBE_UDP_CLOSE (by norm_num [PROBE_UDP_CLOSE])).2 hb5f
        by_cases hb2 : l.testBit PROBE_TCP_CLOSE = true
        · have hres : one_probe_param_set (fun _ => okJ) 0 (closeMask false) 1 ⟨0, l⟩ =
              (0, ⟨0, l ||| (1 <<< PROBE_UDP_CLOSE)⟩, []) := by
            rw [show closeMask false = 1 <<< PROBE_UDP_CLOSE from rfl,
              one_probe_param_set_uninit, one_probe_core,
              if_pos (by norm_num : (1 : Nat) ≠ 0), if_pos hpg,
              plant_close_udp_skip (fun _ => okJ) l hb2]
            rfl
          have hbt : b = true := h3.2 (land_closeBits_ne_zero_left l hb2)
          have hlor : (l ||| (1 <<< PROBE_UDP_CLOSE)) &&& closeBits ≠ 0 :=
            land_closeBits_ne_zero_right _ (testBit_lor_pow_self l PROBE_UDP_CLOSE)
          simp only [closeStep, closeStepEvs, hres]
          refine ⟨⟨by trivial, lor_lt l _ 32 h2 (by decide), ?_⟩, ?_⟩
          · simp [plantedAfter, hbt, hlor]
          · simp [goodStep, closeStepEvs, hres]
        · have hb2f := bool_not_true hb2
          have hz : l &&& closeBits = 0 := (land_closeBits_eq_zero l).2 ⟨hb2f, hb5f⟩
          have hbf : b = false := by
            rcases hbv : b with _ | _
            · rfl
            · exact absurd (h3.1 hbv) (by simp [hz])
          by_cases he : okJ < 0
          · have hres : one_probe_param_set (fun _ => okJ) 0 (closeMask false) 1 ⟨0, l⟩ =
                (-CLOSE_PROBE_FAILED, ⟨0, l⟩, [Ev.plantCall .closeJprobe okJ]) := by
              rw [show closeMask false = 1 <<< PROBE_UDP_CLOSE from rfl,
                one_probe_param_set_uninit, one_probe_core,
                if_pos (by norm_num : (1 : Nat) ≠ 0), if_pos hpg,
                plant_close_udp_fail (fun _ => okJ) l hb2f he]
              rfl
            simp only [closeStep, closeStepEvs, hres]
            refine ⟨⟨by trivial, h2, ?_⟩, ?_⟩
            · simp [plantedAfter, applyEv, he, hbf, hz]
            · simp [goodStep, closeStepEvs, hres, hz]
          · have hres : one_probe_param_set (fun _ => okJ) 0 (closeMask false) 1 ⟨0, l⟩ =
                (okJ, ⟨0, l ||| (1 <<< PROBE_UDP_CLOSE)⟩, [Ev.plantCall .closeJprobe okJ]) := by
              rw [show closeMask false = 1 <<< PROBE_UDP_CLOSE from rfl,
                one_probe_param_set_uninit, one_probe_core,
                if_pos (by norm_num : (1 : Nat) ≠ 0), if_pos hpg,
                plant_close_udp_fresh (fun _ => okJ) l hb2f he]
              rfl
            have hlor : (l ||| (1 <<< PROBE_UDP_CLOSE)) &&& closeBits ≠ 0 :=
              land_closeBits_ne_zero_right _ (testBit_lor_pow_self l PROBE_UDP_CLOSE)
            simp only [closeStep, closeStepEvs, hres]
            refine ⟨⟨by trivial, lor_lt l _ 32 h2 (by decide), ?_⟩, ?_⟩
            · simp [plantedAfter, applyEv, he, hlor]
            · simp [goodStep, closeStepEvs, hres, hz]
    · -- install TCP_CLOSE
      by_cases hb2 : l.testBit PROBE_TCP_CLOSE = true
      · have hng : ¬ ((1 <<< PROBE_TCP_CLOSE) &&& NOT32 l ≠ 0) := by
          rw [pm_not32_guard l PROBE_TCP_CLOSE (by norm_num [PROBE_TCP_CLOSE])]
          simp [hb2]
        have hres : one_probe_param_set (fun _ => okJ) 0 (closeMask true) 1 ⟨0, l⟩ =
            (0, ⟨0, l⟩, []) := by
          rw [show closeMask true = 1 <<< PROBE_TCP_CLOSE from rfl,
            one_probe_param_set_uninit, one_probe_core,
            if_pos (by norm_num : (1 : Nat) ≠ 0), if_neg hng]
        simp only [closeStep, closeStepEvs, hres]
        refine ⟨⟨by trivial, h2, ?_⟩, ?_⟩
        · simpa [plantedAfter] using h3
        · simp [goodStep, closeStepEvs, hres]
      · have hb2f := bool_not_true hb2
        have hpg : (1 <<< PROBE_TCP_CLOSE) &&& NOT32 l ≠ 0 :=
          (pm_not32_guard l PROBE_TCP_CLOSE (by norm_num [PROBE_TCP_CLOSE])).2 hb2f
        by_cases hb5 : l.testBit PROBE_UDP_CLOSE = true
        · have hres : one_probe_param_set (fun _ => okJ) 0 (closeMask true) 1 ⟨0, l⟩ =
              (0, ⟨0, l ||| (1 <<< PROBE_TCP_CLOSE)⟩, []) := by
            rw [show closeMask true = 1 <<< PROBE_TCP_CLOSE from rfl,
              one_probe_param_set_uninit, one_probe_core,
              if_pos (by norm_num : (1 : Nat) ≠ 0), if_pos hpg,
              plant_close_tcp_skip (fun _ => okJ) l hb5]
            rfl
          have hbt : b = true := h3.2 (land_closeBits_ne_zero_right l hb5)
          have hlor : (l ||| (1 <<< PROBE_TCP_CLOSE)) &&& closeBits ≠ 0 :=
            land_closeBits_ne_zero_left _ (testBit_lor_pow_self l PROBE_TCP_CLOSE)
          simp only [closeStep, closeStepEvs, hres]
          refine ⟨⟨by trivial, lor_lt l _ 32 h2 (by decide), ?_⟩, ?_⟩
          · simp [plantedAfter, hbt, hlor]
          · simp [goodStep, closeStepEvs, hres]
        · have hb5f := bool_not_true hb5
          have hz : l &&& closeBits = 0 := (land_closeBits_eq_zero l).2 ⟨hb2f, hb5f⟩
          have hbf : b = false := by
            rcases hbv : b with _ | _
            · rfl
            · exact absurd (h3.1 hbv) (by simp [hz])
          by_cases he : okJ < 0
          · have hres : one_probe_param_set (fun _ => okJ) 0 (closeMask true) 1 ⟨0, l⟩ =
                (-CLOSE_PROBE_FAILED, ⟨0, l⟩, [Ev.plantCall .closeJprobe okJ]) := by
              rw [show closeMask true = 1 <<< PROBE_TCP_CLOSE from rfl,
                one_probe_param_set_uninit, one_probe_core,
                if_pos (by norm_num : (1 : Nat) ≠ 0), if_pos hpg,
                plant_close_tcp_fail (fun _ => okJ) l hb5f he]
              rfl
            simp only [closeStep, closeStepEvs, hres]
            refine ⟨⟨by trivial, h2, ?_⟩, ?_⟩
            · simp [plantedAfter, applyEv, he, hbf, hz]
            · simp [goodStep, closeStepEvs, hres, hz]
          · have hres : one_probe_param_set (fun _ => okJ) 0 (closeMask true) 1 ⟨0, l⟩ =
                (okJ, ⟨0, l ||| (1 <<< PROBE_TCP_CLOSE)⟩, [Ev.plantCall .closeJprobe okJ]) := by
              rw [show closeMask true = 1 <<< PROBE_TCP_CLOSE from rfl,
                one_probe_param_set_uninit, one_probe_core,
                if_pos (by norm_num : (1 : Nat) ≠ 0), if_pos hpg,
                plant_close_tcp_fresh (fun _ => okJ) l hb5f he]
              rfl
            have hlor : (l ||| (1 <<< PROBE_TCP_CLOSE)) &&& closeBits ≠ 0 :=
              land_closeBits_ne_zero_left _ (testBit_lor_pow_self l PROBE_TCP_CLOSE)
            simp only [closeStep, closeStepEvs, hres]
            refine ⟨⟨by trivial, lor_lt l _ 32 h2 (by decide), ?_⟩, ?_⟩
            · simp [plantedAfter, applyEv, he, hlor]
            · simp [goodStep, closeStepEvs, hres, hz]
  · rcases tcp with _ | _
    · -- uninstall UDP_CLOSE
      by_cases hb5 : l.testBit PROBE_UDP_CLOSE = true
      · have hpg : (1 <<< PROBE_UDP_CLOSE) &&& l ≠ 0 := (pm_land_guard l PROBE_UDP_CLOSE).2 hb5
        have hbt : b = true := h3.2 (land_closeBits_ne_zero_right l hb5)
        by_cases hb2 : l.testBit PROBE_TCP_CLOSE = true
        · have hne : (l ^^^ (1 <<< PROBE_UDP_CLOSE)) &&& closeBits ≠ 0 :=
            land_closeBits_ne_zero_left _ (by
              rw [testBit_xor_pow_other l PROBE_UDP_CLOSE PROBE_TCP_CLOSE (by decide)]
              exact hb2)
          have hres : one_probe_param_set (fun _ => 0) 0 (closeMask false) 0 ⟨0, l⟩ =
              (0, ⟨0, l ^^^ (1 <<< PROBE_UDP_CLOSE)⟩, []) := by
            rw [show closeMask false = 1 <<< PROBE_UDP_CLOSE from rfl,
              one_probe_param_set_uninit, one_probe_core, if_neg (by simp), if_pos hpg,
              unplant_close_udp_eval l]
            simp [hne]
          simp only [closeStep, closeStepEvs, hres]
          refine ⟨⟨by trivial, xor_subset_lt l _ 32 h2 (by decide), ?_⟩, ?_⟩
          · simp [plantedAfter, hbt, hne]
          · simp [goodStep, closeStepEvs, hres]
        · have hb2f := bool_not_true hb2
          have hzq : (l ^^^ (1 <<< PROBE_UDP_CLOSE)) &&& closeBits = 0 :=
            (land_closeBits_eq_zero _).2
              ⟨(by rw [testBit_xor_pow_other l PROBE_UDP_CLOSE PROBE_TCP_CLOSE (by decide)]; exact hb2f),
               (by rw [testBit_xor_pow_self, hb5]; rfl)⟩
          have hold : l &&& closeBits ≠ 0 := land_closeBits_ne_zero_right l hb5
          have hres : one_probe_param_set (fun _ => 0) 0 (closeMask false) 0 ⟨0, l⟩ =
              (0, ⟨0, l ^^^ (1 <<< PROBE_UDP_CLOSE)⟩, [Ev.unplantCall .closeJprobe]) := by
            rw [show closeMask false = 1 <<< PROBE_UDP_CLOSE from rfl,
              one_probe_param_set_uninit, one_probe_core, if_neg (by simp), if_pos hpg,
              unplant_close_udp_eval l]
            simp [hzq]
          simp only [closeStep, closeStepEvs, hres]
          refine ⟨⟨by trivial, xor_subset_lt l _ 32 h2 (by decide), ?_⟩, ?_⟩
          · simp [plantedAfter, applyEv, hzq]
          · simp [goodStep, closeStep, closeStepEvs, hres, hzq, hold]
      · have hb5f := bool_not_true hb5
        have hng : ¬ ((1 <<< PROBE_UDP_CLOSE) &&& l ≠ 0) := by
          rw [pm_land_guard]
          simp [hb5f]
        have hres : one_probe_param_set (fun _ => 0) 0 (closeMask false) 0 ⟨0, l⟩ =
            (0, ⟨0, l⟩, []) := by
          rw [show closeMask false = 1 <<< PROBE_UDP_CLOSE from rfl,
            one_probe_param_set_uninit, one_probe_core, if_neg (by simp), if_neg hng]
        simp only [closeStep, closeStepEvs, hres]
        refine ⟨⟨by trivial, h2, ?_⟩, ?_⟩
        · simpa [plantedAfter] using h3
        · simp [goodStep, closeStepEvs, hres]
    · -- uninstall TCP_CLOSE
      by_cases hb2 : l.testBit PROBE_TCP_CLOSE = true
      · have hpg : (1 <<< PROBE_TCP_CLOSE) &&& l ≠ 0 := (pm_land_guard l PROBE_TCP_CLOSE).2 hb2
        have hbt : b = true := h3.2 (land_closeBits_ne_zero_left l hb2)
        by_cases hb5 : l.testBit PROBE_UDP_CLOSE = true
        · have hne : (l ^^^ (1 <<< PROBE_TCP_CLOSE)) &&& closeBits ≠ 0 :=
            land_closeBits_ne_zero_right _ (by
              rw [testBit_xor_pow_other l PROBE_TCP_CLOSE PROBE_UDP_CLOSE (by decide)]
              exact hb5)
          have hres : one_probe_param_set (fun _ => 0) 0 (closeMask true) 0 ⟨0, l⟩ =
              (0, ⟨0, l ^^^ (1 <<< PROBE_TCP_CLOSE)⟩, []) := by
            rw [show closeMask true = 1 <<< PROBE_TCP_CLOSE from rfl,
              one_probe_param_set_uninit, one_probe_core, if_neg (by simp), if_pos hpg,
              unplant_close_tcp_eval l]
            simp [hne]
          simp only [closeStep, closeStepEvs, hres]
          refine ⟨⟨by trivial, xor_subset_lt l _ 32 h2 (by decide), ?_⟩, ?_⟩
          · simp [plantedAfter, hbt, hne]
          · simp [goodStep, closeStepEvs, hres]
        · have hb5f := bool_not_true hb5
          have hzq : (l ^^^ (1 <<< PROBE_TCP_CLOSE)) &&& closeBits = 0 :=
            (land_closeBits_eq_zero _).2
              ⟨(by rw [testBit_xor_pow_self, hb2]; rfl),
               (by rw [testBit_xor_pow_other l PROBE_TCP_CLOSE PROBE_UDP_CLOSE (by decide)]; exact hb5f)⟩
          have hold : l &&& closeBits ≠ 0 := land_closeBits_ne_zero_left l hb2
          have hres : one_probe_param_set (fun _ => 0) 0 (closeMask true) 0 ⟨0, l⟩ =
              (0, ⟨0, l ^^^ (1 <<< PROBE_TCP_CLOSE)⟩, [Ev.unplantCall .closeJprobe]) := by
            rw [show closeMask true = 1 <<< PROBE_TCP_CLOSE from rfl,
              one_probe_param_set_uninit, one_probe_core, if_neg (by simp), if_pos hpg,
              unplant_close_tcp_eval l]
            simp [hzq]
          simp only [closeStep, closeStepEvs, hres]
          refine ⟨⟨by trivial, xor_subset_lt l _ 32 h2 (by decide), ?_⟩, ?_⟩
          · simp [plantedAfter, applyEv, hzq]
          · simp [goodStep, closeStep, closeStepEvs, hres, hzq, hold]
      · have hb2f := bool_not_true hb2
        have hng : ¬ ((1 <<< PROBE_TCP_CLOSE) &&& l ≠ 0) := by
          rw [pm_land_guard]
          simp [hb2f]
        have hres : one_probe_param_set (fun _ => 0) 0 (closeMask true) 0 ⟨0, l⟩ =
            (0, ⟨0, l⟩, []) := by
          rw [show closeMask true = 1 <<< PROBE_TCP_CLOSE from rfl,
            one_probe_param_set_uninit, one_probe_core, if_neg (by simp), if_neg hng]
        simp only [closeStep, closeStepEvs, hres]
        refine ⟨⟨by trivial, h2, ?_⟩, ?_⟩
        · simpa [plantedAfter] using h3
        · simp [goodStep, closeStepEvs, hres]

theorem runClose_good : ∀ (ops : List COp) (l : Nat) (b : Bool),
    l < 2 ^ 32 → (b = true ↔ l &&& closeBits ≠ 0) →
    ((runClose ⟨⟨0, l⟩, b⟩ ops).reg.initialized = 0 ∧
     (runClose ⟨⟨0, l⟩, b⟩ ops).reg.loaded < 2 ^ 32 ∧
     ((runClose ⟨⟨0, l⟩, b⟩ ops).planted = true ↔
       (runClose ⟨⟨0, l⟩, b⟩ ops).reg.loaded &&& closeBits ≠ 0)) ∧
    goodRun ⟨⟨0, l⟩, b⟩ ops = true := by
  intro ops
  induction ops with
  | nil =>
    intro l b h2 h3
    exact ⟨⟨rfl, h2, h3⟩, rfl⟩
  | cons op t ih =>
    intro l b h2 h3
    obtain ⟨⟨hi, hlt, hiff⟩, hg⟩ := closeStep_good l b op h2 h3
    rcases hw : closeStep ⟨⟨0, l⟩, b⟩ op with ⟨⟨i', l'⟩, b'⟩
    rw [hw] at hi hlt hiff
    have hi' : i' = 0 := hi
    subst hi'
    have hmain := ih l' b' hlt hiff
    constructor
    · have hrun : runClose ⟨⟨0, l⟩, b⟩ (op :: t) = runClose ⟨⟨0, l'⟩, b'⟩ t := by
        simp only [runClose, hw]
      rw [hrun]
      exact hmain.1
    · have hgr : goodRun ⟨⟨0, l⟩, b⟩ (op :: t) =
          (goodStep ⟨⟨0, l⟩, b⟩ op && goodRun ⟨⟨0, l'⟩, b'⟩ t) := by
        simp only [goodRun, hw]
      rw [hgr, hg, hmain.2]
      rfl

/-- C1: shared close hook reference counting.  Starting from any reachable
world (registry `initialized = 0`, a 32-bit mask, and the physical close hook
installed exactly when a close bit is set — in particular the module-load
state `loaded = 0`, hook not installed), after ANY sequence of
install/uninstall toggles of the TCP_CLOSE and UDP_CLOSE probe kinds
(arbitrary `plant_jprobe` outcomes included): the physical `close_jprobe` is
installed iff at least one of the two close bits is set in `loaded_probes`;
and along the whole run, every `plant_jprobe` call was issued with both close
bits clear (so never when the sibling bit was already set), and every
`unplant_jprobe` call was issued exactly when the last of the two bits was
being cleared. -/
theorem netlog_c1_shared_close_refcount (ops : List COp) (l : Nat) (b : Bool)
    (h2 : l < 2 ^ 32) (h3 : b = true ↔ l &&& closeBits ≠ 0) :
    ((runClose ⟨⟨0, l⟩, b⟩ ops).planted = true ↔
      (runClose ⟨⟨0, l⟩, b⟩ ops).reg.loaded &&& closeBits ≠ 0) ∧
    goodRun ⟨⟨0, l⟩, b⟩ ops = true :=
  ⟨((runClose_good ops l b h2 h3).1).2.2, (runClose_good ops l b h2 h3).2⟩

/-- C1 witness: from the module-load state, install TCP_CLOSE, install
UDP_CLOSE (no second physical plant), uninstall TCP_CLOSE (no physical
unplant), uninstall UDP_CLOSE (one physical unplant): the invariant and the
per-step discipline hold. -/
theorem netlog_c1_shared_close_refcount_witness :
    ((runClose ⟨⟨0, 0⟩, false⟩
        [COp.inst true 0, COp.inst false 0, COp.uninst true, COp.uninst false]).planted = true ↔
      (runClose ⟨⟨0, 0⟩, false⟩
        [COp.inst true 0, COp.inst false 0, COp.uninst true, COp.uninst false]).reg.loaded &&&
        closeBits ≠ 0) ∧
    goodRun ⟨⟨0, 0⟩, false⟩
      [COp.inst true 0, COp.inst false 0, COp.uninst true, COp.uninst false] = true :=
  netlog_c1_shared_close_refcount
    [COp.inst true 0, COp.inst false 0, COp.uninst true, COp.uninst false] 0 false
    (by norm_num) (by decide)
